import Mathlib

/-! WebServersC: fork, select and epoll servers.

A shallow embedding of `fork_server.c`, `select_server.c` and `epoll_server.c`.
Every system call is answered by an explicit environment value (its return
value and `errno`), and each run records the calls it issues as a list of
`Event`s.  Descriptor numbers that passed the program's `< 0` test are kept as
natural numbers.
-/

namespace WebServers

/-! Constants. -/

/-- `#define DEFAULT_PORT 8080`. -/
def DEFAULT_PORT : Int := 8080

/-- `#define BACKLOG 16`. -/
def BACKLOG : Nat := 16

/-- `#define BUF_SIZE 4096`. -/
def BUF_SIZE : Nat := 4096

/-- `#define MAX_EVENTS 1024` (epoll server). -/
def MAX_EVENTS : Nat := 1024

/-- `EXIT_SUCCESS` of `<stdlib.h>`. -/
def EXIT_SUCCESS : Int := 0

/-- `EXIT_FAILURE` of `<stdlib.h>`. -/
def EXIT_FAILURE : Int := 1

/-- `EINTR` of `<errno.h>` (its Linux value). -/
def EINTR : Int := 4

/-- `FD_SETSIZE` of `<sys/select.h>` (its Linux value): `FD_SET` is only defined
for descriptors below it. -/
def FD_SETSIZE : Nat := 1024

/-! Environment answers and recorded calls. -/

/-- What a system call hands back: its return value and the `errno` it left. -/
structure SysRet where
  ret : Int
  errno : Int
deriving DecidableEq

/-- What `read` hands back: return value, `errno`, and the bytes it stored in `buf`. -/
structure ReadRet where
  n : Int
  errno : Int
  data : List Char
deriving DecidableEq

/-- The calls a server issues, in program order. -/
inductive Event where
  | fprintf_stderr (msg : String)
  | printf (msg : String)
  | perror (msg : String)
  | signal (sig : String)
  | sigaction (sig : String)
  | socket
  | setsockopt (fd : Nat)
  | bind (fd : Nat) (port : Int)
  | listen (fd : Nat) (backlog : Nat)
  | epoll_create1
  | epoll_ctl_add (epfd : Nat) (fd : Nat)
  | epoll_ctl_del (epfd : Nat) (fd : Nat)
  | select (nfds : Nat)
  | epoll_wait (epfd : Nat) (maxevents : Nat)
  | accept (fd : Nat)
  | fork
  | read (fd : Nat) (count : Nat)
  | write (fd : Nat) (bytes : List Char)
  | close (fd : Nat)
deriving DecidableEq

/-- How a run of `main` (or of a piece of it) stands.
`running`: control is inside the program; `blocked`: the last call issued has no
answer in the environment script, so the program waits in it; `undefined`: the
program invoked `FD_SET` outside its domain; `returned c`: `main` executed
`return c`; `exited c`: the program called `exit(c)` or `_exit(c)`; `left`:
control has left the `while (keep_running)` loop and stands right behind it. -/
inductive Status where
  | running
  | blocked
  | undefined
  | left
  | returned (code : Int)
  | exited (code : Int)
deriving DecidableEq

/-- The calls issued by a piece of the program together with the state it leaves. -/
structure Run (σ : Type) where
  trace : List Event
  st : σ
deriving DecidableEq

/-- Puts the calls issued earlier in front of a run. -/
def Run.after {σ : Type} (pre : List Event) (r : Run σ) : Run σ :=
  { r with trace := pre ++ r.trace }

/-! The write loop of the select and epoll servers. -/

/-- How a run of `safe_write` ended: the loop condition became false (`done`),
the `else` branch ran `perror` and `break` (`failed`), or a `write` call was
issued whose answer the script does not contain (`pending`). -/
inductive WStatus where
  | done
  | failed
  | pending
deriving DecidableEq

/-- The record of one `safe_write` run: the calls issued, the final value of
`off`, the bytes the kernel accepted (in order), and how the run ended. -/
structure WriteRun where
  trace : List Event
  off : Nat
  sent : List Char
  status : WStatus
deriving DecidableEq

/-- The bytes handed to `write(fd, buf + off, len - off)`. -/
def window (buf : List Char) (len off : Nat) : List Char :=
  (buf.drop off).take (len - off)

/-- Puts the record of one more loop iteration in front of the rest of a run. -/
def WriteRun.after (e : Event) (acc : List Char) (r : WriteRun) : WriteRun :=
  { r with trace := e :: r.trace, sent := acc ++ r.sent }

end WebServers

namespace WebServers.Select

/-- The loop of `safe_write` in `select_server.c`, started with the given
`off`; the script answers the successive `write` calls. -/
def safe_write_loop (fd : Nat) (buf : List Char) (len : Nat) :
    List SysRet → Nat → WriteRun
  | [], off =>
    if off < len then
      { trace := [Event.write fd (window buf len off)], off := off, sent := [],
        status := WStatus.pending }
    else { trace := [], off := off, sent := [], status := WStatus.done }
  | r :: rest, off =>
    if off < len then
      if 0 < r.ret then
        (safe_write_loop fd buf len rest (off + r.ret.toNat)).after
          (Event.write fd (window buf len off)) ((window buf len off).take r.ret.toNat)
      else if r.ret = -1 ∧ r.errno = EINTR then
        (safe_write_loop fd buf len rest off).after
          (Event.write fd (window buf len off)) []
      else
        { trace := [Event.write fd (window buf len off), Event.perror "write"],
          off := off, sent := [], status := WStatus.failed }
    else { trace := [], off := off, sent := [], status := WStatus.done }

/-- `static void safe_write(int fd, const char *buf, size_t len)`. -/
def safe_write (fd : Nat) (buf : List Char) (len : Nat) (script : List SysRet) : WriteRun :=
  safe_write_loop fd buf len script 0

end WebServers.Select

namespace WebServers.Epoll

/-- The loop of `safe_write` in `epoll_server.c`, started with the given
`off`; the script answers the successive `write` calls. -/
def safe_write_loop (fd : Nat) (buf : List Char) (len : Nat) :
    List SysRet → Nat → WriteRun
  | [], off =>
    if off < len then
      { trace := [Event.write fd (window buf len off)], off := off, sent := [],
        status := WStatus.pending }
    else { trace := [], off := off, sent := [], status := WStatus.done }
  | r :: rest, off =>
    if off < len then
      if 0 < r.ret then
        (safe_write_loop fd buf len rest (off + r.ret.toNat)).after
          (Event.write fd (window buf len off)) ((window buf len off).take r.ret.toNat)
      else if r.ret = -1 ∧ r.errno = EINTR then
        (safe_write_loop fd buf len rest off).after
          (Event.write fd (window buf len off)) []
      else
        { trace := [Event.write fd (window buf len off), Event.perror "write"],
          off := off, sent := [], status := WStatus.failed }
    else { trace := [], off := off, sent := [], status := WStatus.done }

/-- `static void safe_write(int fd, const char *buf, size_t len)`. -/
def safe_write (fd : Nat) (buf : List Char) (len : Nat) (script : List SysRet) : WriteRun :=
  safe_write_loop fd buf len script 0

end WebServers.Epoll

namespace WebServers

/-! Vocabulary of the statements about the write loop. -/

/-- The number of bytes a sequence of `write` answers accepted in total. -/
def accepted : List SysRet → Nat
  | [] => 0
  | r :: rest => (if 0 < r.ret then r.ret.toNat else 0) + accepted rest

/-- Every answer of the script belongs to a call the loop issues (`off < len`
when it is issued) and either accepts `k` bytes with `1 ≤ k ≤ len - off` or
fails with `errno = EINTR`; `off` is the offset before the first answer. -/
def goodAnswers (len : Nat) : Nat → List SysRet → Bool
  | _, [] => true
  | off, r :: rest =>
    decide (off < len) &&
      ((decide (0 < r.ret ∧ r.ret ≤ ((len - off : Nat) : Int)) &&
          goodAnswers len (off + r.ret.toNat) rest) ||
        (decide (r.ret = -1 ∧ r.errno = EINTR) && goodAnswers len off rest))

/-- The port of the first `bind` call recorded in a trace. -/
def boundPort : List Event → Option Int
  | [] => none
  | Event.bind _ port :: _ => some port
  | _ :: rest => boundPort rest

/-- The byte sequences handed to the successive `write` calls on `fd`. -/
def written (fd : Nat) : List Event → List (List Char)
  | [] => []
  | Event.write g bytes :: rest => if g = fd then bytes :: written fd rest else written fd rest
  | _ :: rest => written fd rest

/-- The descriptors a scan or event loop handled, in the order it handled
them: the listener when `accept` is called on it, a client when it is read. -/
def handled : List Event → List Nat
  | [] => []
  | Event.accept fd :: rest => fd :: handled rest
  | Event.read fd _ :: rest => fd :: handled rest
  | _ :: rest => handled rest

/-- The number of `write` calls recorded in a trace. -/
def writeCount (tr : List Event) : Nat :=
  (tr.filter fun e => match e with
    | Event.write _ _ => true
    | _ => false).length

end WebServers

/-! The fork server (`fork_server.c`). -/

namespace WebServers.Fork

/-- The string literal `resp` of `handle_client`. -/
def resp : String :=
  "HTTP/1.1 200 OK\r\nContent-Type: text/plain\r\nConnection: close\r\n\r\nHello from fork server!\n"

/-- `void handle_client(int client_fd)`: `rd` answers the `read`, `wr` answers
the `write` (consulted only when the `write` is issued). -/
def handle_client (client_fd : Nat) (rd : ReadRet) (wr : SysRet) : List Event :=
  [Event.read client_fd (BUF_SIZE - 1)] ++
    (if 0 < rd.n then
      [Event.write client_fd (resp.data.take resp.length)] ++
        (if wr.ret = -1 then [Event.perror "write"] else [])
    else []) ++
    [Event.close client_fd]

/-- Answers of the start-up calls of `main`, and whether a SIGINT/SIGTERM handler
ran before the first test of `keep_running`. -/
structure Boot where
  sigaction : Int
  socket : Int
  setsockopt : Int
  bind : Int
  listen : Int
  signal : Bool

/-- What the environment supplies for one pass through the `while` body:
whether a SIGINT/SIGTERM handler ran during the pass, the answers of `accept`
and `fork`, and the answers the child gets from `read` and `write`. -/
structure Turn where
  signal : Bool
  acc : SysRet
  pid : Int
  rd : ReadRet
  wr : SysRet

/-- The state of the process running `main`: the flag, the runs of the children
it has forked so far, and where control stands. -/
structure St where
  keep_running : Int
  children : List (List Event)
  status : Status
deriving DecidableEq

/-- `void sigint_handler(int signo)`: the only assignment to `keep_running`
behind its initialisation with 1. -/
def sigint_handler (st : St) : St :=
  { st with keep_running := 0 }

/-- The `pid == 0` branch: what a forked child does. -/
def child (server_fd client_fd : Nat) (rd : ReadRet) (wr : SysRet) : List Event :=
  Event.close server_fd :: handle_client client_fd rd wr

/-- One pass through the body of `while (keep_running)` (lines 152-188). -/
def pass (server_fd : Nat) (t : Turn) (st : St) : Run St :=
  let st1 : St := if t.signal then sigint_handler st else st
  if t.acc.ret < 0 then
    if t.acc.errno = EINTR then
      { trace := [Event.accept server_fd], st := st1 }
    else
      { trace := [Event.accept server_fd, Event.perror "accept"],
        st := { st1 with status := Status.left } }
  else
    let client_fd := t.acc.ret.toNat
    if t.pid < 0 then
      { trace := [Event.accept server_fd, Event.fork, Event.perror "fork",
          Event.close client_fd],
        st := st1 }
    else if t.pid = 0 then
      { trace := [Event.accept server_fd, Event.fork] ++ child server_fd client_fd t.rd t.wr,
        st := { st1 with status := Status.exited EXIT_SUCCESS } }
    else
      { trace := [Event.accept server_fd, Event.fork, Event.close client_fd],
        st := { st1 with
          children := st1.children ++ [child server_fd client_fd t.rd t.wr] } }

/-- The loop `while (keep_running)` over the scripted passes. -/
def serve (server_fd : Nat) : List Turn → St → Run St
  | [], st =>
    if st.keep_running ≠ 0 then
      { trace := [Event.accept server_fd], st := { st with status := Status.blocked } }
    else { trace := [], st := { st with status := Status.left } }
  | t :: rest, st =>
    if st.keep_running ≠ 0 then
      if (pass server_fd t st).st.status = Status.running then
        (serve server_fd rest (pass server_fd t st).st).after (pass server_fd t st).trace
      else pass server_fd t st
    else { trace := [], st := { st with status := Status.left } }

/-- The code behind the loop (lines 191-193). -/
def finish (server_fd : Nat) (st : St) : Run St :=
  { trace := [Event.printf "Shutting down server.", Event.close server_fd],
    st := { st with status := Status.returned EXIT_SUCCESS } }

/-- The loop followed by the code behind it. -/
def serve_and_exit (server_fd : Nat) (turns : List Turn) (st : St) : Run St :=
  if (serve server_fd turns st).st.status = Status.left then
    (finish server_fd (serve server_fd turns st).st).after (serve server_fd turns st).trace
  else serve server_fd turns st

/-- The state in which `main` gives up during start-up with the given status. -/
def halted (s : Status) : St :=
  { keep_running := 1, children := [], status := s }

/-- The state before the loop, with `keep_running` at its initial value. -/
def fresh : St :=
  { keep_running := 1, children := [], status := Status.running }

/-- The state in which the loop is entered: `sig` tells whether a
SIGINT/SIGTERM handler has run by then. -/
def init (sig : Bool) : St :=
  if sig then sigint_handler fresh else fresh

/-- The part of `main` behind the port check, with the value of `port`. -/
def start (port : Int) (boot : Boot) (turns : List Turn) : Run St :=
  if boot.sigaction = -1 then
    { trace := [Event.signal "SIGPIPE", Event.sigaction "SIGCHLD", Event.perror "sigaction(SIGCHLD)"],
      st := halted (Status.exited EXIT_FAILURE) }
  else if boot.socket < 0 then
    { trace := [Event.signal "SIGPIPE", Event.sigaction "SIGCHLD", Event.signal "SIGINT",
        Event.signal "SIGTERM", Event.socket, Event.perror "socket"],
      st := halted (Status.exited EXIT_FAILURE) }
  else
    let server_fd := boot.socket.toNat
    let pre := [Event.signal "SIGPIPE", Event.sigaction "SIGCHLD", Event.signal "SIGINT",
      Event.signal "SIGTERM", Event.socket, Event.setsockopt server_fd]
    if boot.setsockopt < 0 then
      { trace := pre ++ [Event.perror "setsockopt", Event.close server_fd],
        st := halted (Status.exited EXIT_FAILURE) }
    else if boot.bind < 0 then
      { trace := pre ++ [Event.bind server_fd (port % 65536), Event.perror "bind",
          Event.close server_fd],
        st := halted (Status.exited EXIT_FAILURE) }
    else if boot.listen < 0 then
      { trace := pre ++ [Event.bind server_fd (port % 65536), Event.listen server_fd BACKLOG,
          Event.perror "listen", Event.close server_fd],
        st := halted (Status.exited EXIT_FAILURE) }
    else
      (serve_and_exit server_fd turns (init boot.signal)).after
        (pre ++ [Event.bind server_fd (port % 65536), Event.listen server_fd BACKLOG,
          Event.printf "Server listening"])

/-- `int main(int argc, char *argv[])`: `arg` is `atoi(argv[1])` when an
argument is given (`argc > 1`). -/
def main (arg : Option Int) (boot : Boot) (turns : List Turn) : Run St :=
  match arg with
  | none => start DEFAULT_PORT boot turns
  | some port =>
    if port ≤ 0 ∨ port > 65535 then
      { trace := [Event.fprintf_stderr "Invalid port"],
        st := halted (Status.returned EXIT_FAILURE) }
    else start port boot turns

end WebServers.Fork

/-! The select server (`select_server.c`). -/

namespace WebServers.Select

/-- The string literal `resp` of the client branch. -/
def resp : String :=
  "HTTP/1.1 200 OK\r\nContent-Type: text/plain\r\nConnection: close\r\n\r\nHello from select server!\n"

/-- Answers of the start-up calls of `main`, and whether a SIGINT/SIGTERM handler
ran before the first test of `keep_running`. -/
structure Boot where
  socket : Int
  setsockopt : Int
  bind : Int
  listen : Int
  signal : Bool

/-- What the environment supplies for one pass through the `while` body:
whether a SIGINT/SIGTERM handler ran during the pass, the answer of `select`
(return value, `errno`, and the descriptors left set in `read_set`), the answer
of `accept`, and for each descriptor the answers of `read` and of the
successive `write` calls on it. -/
structure Wake where
  signal : Bool
  ready : Int
  errno : Int
  read_set : Finset Nat
  acc : SysRet
  rd : Nat → ReadRet
  wr : Nat → List SysRet

/-- The state of `main` inside the loop: the flag, `master_set`, `maxfd`, where
control stands, and (kernel side) the descriptors from `socket` and `accept`
that the process holds open. -/
structure St where
  keep_running : Int
  master_set : Finset Nat
  maxfd : Nat
  open_fds : Finset Nat
  status : Status
deriving DecidableEq

/-- `void sigint_handler(int signo)`: the only assignment to `keep_running`
behind its initialisation with 1. -/
def sigint_handler (st : St) : St :=
  { st with keep_running := 0 }

/-- The listener branch of the scan (lines 158-180). `FD_SET` is undefined for
a descriptor that is not below `FD_SETSIZE`; the run stops there. -/
def accept_client (server_fd : Nat) (acc : SysRet) (st : St) : Run St :=
  if acc.ret < 0 then
    { trace := [Event.accept server_fd, Event.perror "accept"], st := st }
  else
    let client_fd := acc.ret.toNat
    if FD_SETSIZE ≤ client_fd then
      { trace := [Event.accept server_fd],
        st := { st with open_fds := insert client_fd st.open_fds, status := Status.undefined } }
    else
      { trace := [Event.accept server_fd],
        st := { st with
          open_fds := insert client_fd st.open_fds
          master_set := insert client_fd st.master_set
          maxfd := if client_fd > st.maxfd then client_fd else st.maxfd } }

/-- The client branch of the scan (lines 181-209). When the write loop is left
waiting in a `write`, so is the handler. -/
def serve_client (fd : Nat) (rd : ReadRet) (ws : List SysRet) (st : St) : Run St :=
  if rd.n ≤ 0 then
    { trace := [Event.read fd (BUF_SIZE - 1), Event.close fd],
      st := { st with open_fds := st.open_fds.erase fd, master_set := st.master_set.erase fd } }
  else if (safe_write fd resp.data resp.length ws).status = WStatus.pending then
    { trace := Event.read fd (BUF_SIZE - 1) :: (safe_write fd resp.data resp.length ws).trace,
      st := { st with status := Status.blocked } }
  else
    { trace := Event.read fd (BUF_SIZE - 1) ::
        ((safe_write fd resp.data resp.length ws).trace ++ [Event.close fd]),
      st := { st with open_fds := st.open_fds.erase fd, master_set := st.master_set.erase fd } }

/-- The loop `for (int fd = 0; fd <= maxfd && ready; fd++)` from the given `fd`
and `ready`; the first argument bounds the number of iterations. -/
def scan_loop (server_fd : Nat) (w : Wake) : Nat → Nat → Int → St → Run St
  | 0, _, _, st => { trace := [], st := st }
  | fuel + 1, fd, ready, st =>
    if fd ≤ st.maxfd ∧ ready ≠ 0 then
      if fd ∈ w.read_set then
        if fd = server_fd then
          if (accept_client server_fd w.acc st).st.status = Status.running then
            (scan_loop server_fd w fuel (fd + 1) (ready - 1)
              (accept_client server_fd w.acc st).st).after (accept_client server_fd w.acc st).trace
          else accept_client server_fd w.acc st
        else
          if (serve_client fd (w.rd fd) (w.wr fd) st).st.status = Status.running then
            (scan_loop server_fd w fuel (fd + 1) (ready - 1)
              (serve_client fd (w.rd fd) (w.wr fd) st).st).after
                (serve_client fd (w.rd fd) (w.wr fd) st).trace
          else serve_client fd (w.rd fd) (w.wr fd) st
      else scan_loop server_fd w fuel (fd + 1) ready st
    else { trace := [], st := st }

/-- The whole scan of one wake. `fd` never exceeds the final `maxfd` by more
than one, and `maxfd` only grows to the descriptor `accept` returned, so the
iteration bound given here is never reached with the loop condition true. -/
def scan (server_fd : Nat) (w : Wake) (st : St) : Run St :=
  scan_loop server_fd w (max st.maxfd w.acc.ret.toNat + 2) 0 w.ready st

/-- One pass through the body of `while (keep_running)` (lines 132-210). -/
def pass (server_fd : Nat) (w : Wake) (st : St) : Run St :=
  let st1 : St := if w.signal then sigint_handler st else st
  if w.ready < 0 then
    if w.errno = EINTR then
      { trace := [Event.select (st.maxfd + 1)], st := st1 }
    else
      { trace := [Event.select (st.maxfd + 1), Event.perror "select"],
        st := { st1 with status := Status.left } }
  else (scan server_fd w st1).after [Event.select (st.maxfd + 1)]

/-- The loop `while (keep_running)` over the scripted wakes. -/
def serve (server_fd : Nat) : List Wake → St → Run St
  | [], st =>
    if st.keep_running ≠ 0 then
      { trace := [Event.select (st.maxfd + 1)], st := { st with status := Status.blocked } }
    else { trace := [], st := { st with status := Status.left } }
  | w :: rest, st =>
    if st.keep_running ≠ 0 then
      if (pass server_fd w st).st.status = Status.running then
        (serve server_fd rest (pass server_fd w st).st).after (pass server_fd w st).trace
      else pass server_fd w st
    else { trace := [], st := { st with status := Status.left } }

/-- The state at the head of the loop after the given passes, when control
gets there. -/
def at_head (server_fd : Nat) : List Wake → St → Option St
  | [], st => some st
  | w :: rest, st =>
    if st.keep_running ≠ 0 ∧ (pass server_fd w st).st.status = Status.running then
      at_head server_fd rest (pass server_fd w st).st
    else none

/-- The descriptors closed by the loop `for (int fd = 0; fd <= maxfd; fd++)`
behind the serve loop (lines 214-220). -/
def cleanup_fds (st : St) : List Nat :=
  (List.range (st.maxfd + 1)).filter fun fd => decide (fd ∈ st.master_set)

/-- The code behind the loop (lines 213-221). -/
def finish (st : St) : Run St :=
  { trace := (cleanup_fds st).map Event.close,
    st := { st with
      open_fds := st.open_fds.filter fun fd => fd ∉ cleanup_fds st
      status := Status.returned EXIT_SUCCESS } }

/-- The loop followed by the code behind it. -/
def serve_and_exit (server_fd : Nat) (wakes : List Wake) (st : St) : Run St :=
  if (serve server_fd wakes st).st.status = Status.left then
    (finish (serve server_fd wakes st).st).after (serve server_fd wakes st).trace
  else serve server_fd wakes st

/-- The state in which `main` gives up during start-up with the given status. -/
def halted (s : Status) : St :=
  { keep_running := 1, master_set := ∅, maxfd := 0, open_fds := ∅, status := s }

/-- The state set up in lines 123-126, with `keep_running` at its initial value. -/
def fresh (server_fd : Nat) : St :=
  { keep_running := 1, master_set := {server_fd}, maxfd := server_fd,
    open_fds := {server_fd}, status := Status.running }

/-- The state in which the loop is entered: `sig` tells whether a
SIGINT/SIGTERM handler has run by then. -/
def init (server_fd : Nat) (sig : Bool) : St :=
  if sig then sigint_handler (fresh server_fd) else fresh server_fd

/-- The part of `main` behind the port check, with the value of `port`. -/
def start (port : Int) (boot : Boot) (wakes : List Wake) : Run St :=
  if boot.socket < 0 then
    { trace := [Event.signal "SIGINT", Event.signal "SIGTERM", Event.signal "SIGPIPE",
        Event.socket, Event.perror "socket"],
      st := halted (Status.exited EXIT_FAILURE) }
  else
    let server_fd := boot.socket.toNat
    let pre := [Event.signal "SIGINT", Event.signal "SIGTERM", Event.signal "SIGPIPE",
      Event.socket, Event.setsockopt server_fd]
    if boot.setsockopt < 0 then
      { trace := pre ++ [Event.perror "setsockopt", Event.close server_fd],
        st := halted (Status.exited EXIT_FAILURE) }
    else if boot.bind < 0 then
      { trace := pre ++ [Event.bind server_fd (port % 65536), Event.perror "bind",
          Event.close server_fd],
        st := halted (Status.exited EXIT_FAILURE) }
    else if boot.listen < 0 then
      { trace := pre ++ [Event.bind server_fd (port % 65536), Event.listen server_fd BACKLOG,
          Event.perror "listen", Event.close server_fd],
        st := halted (Status.exited EXIT_FAILURE) }
    else if FD_SETSIZE ≤ server_fd then
      { trace := pre ++ [Event.bind server_fd (port % 65536), Event.listen server_fd BACKLOG],
        st := { halted Status.undefined with open_fds := {server_fd} } }
    else
      (serve_and_exit server_fd wakes (init server_fd boot.signal)).after
        (pre ++ [Event.bind server_fd (port % 65536), Event.listen server_fd BACKLOG,
          Event.printf "Server listening"])

/-- `int main(int argc, char *argv[])`: `arg` is `atoi(argv[1])` when an
argument is given (`argc > 1`). -/
def main (arg : Option Int) (boot : Boot) (wakes : List Wake) : Run St :=
  match arg with
  | none => start DEFAULT_PORT boot wakes
  | some port =>
    if port ≤ 0 ∨ port > 65535 then
      { trace := [Event.fprintf_stderr "Invalid port"],
        st := halted (Status.returned EXIT_FAILURE) }
    else start port boot wakes

/-- The loop invariant of the select server: `master_set` holds exactly the
descriptors the process has open, none of them above `maxfd`, the listener
among them. -/
def Inv (server_fd : Nat) (st : St) : Prop :=
  st.master_set = st.open_fds ∧ (∀ x ∈ st.master_set, x ≤ st.maxfd) ∧
    server_fd ∈ st.master_set

end WebServers.Select

/-! The epoll server (`epoll_server.c`). -/

namespace WebServers.Epoll

/-- The string literal `resp` of the client branch. -/
def resp : String :=
  "HTTP/1.1 200 OK\r\nContent-Type: text/plain\r\nConnection: close\r\n\r\nHello from epoll server!\n"

/-- Answers of the start-up calls of `main`, and whether a SIGINT/SIGTERM handler
ran before the first test of `keep_running`. -/
structure Boot where
  socket : Int
  setsockopt : Int
  bind : Int
  listen : Int
  epoll_create1 : Int
  epoll_ctl : Int
  signal : Bool

/-- One entry of `events[]` (its `data.fd`) together with the answers of the
calls issued while it is handled: `accept` and `epoll_ctl(EPOLL_CTL_ADD)` for
the listener, `read` and the successive `write` calls for a client. -/
structure Ev where
  fd : Nat
  acc : SysRet
  add : Int
  rd : ReadRet
  wr : List SysRet

/-- What the environment supplies for one pass through the `while` body:
whether a SIGINT/SIGTERM handler ran during the pass, and the answer of
`epoll_wait` (return value, `errno`, and the entries stored in `events[]`). -/
structure Wake where
  signal : Bool
  nready : Int
  errno : Int
  events : List Ev

/-- The state of `main` inside the loop: the flag, where control stands, and
(kernel side) the interest list of the epoll instance and the descriptors from
`socket`, `epoll_create1` and `accept` that the process holds open. -/
structure St where
  keep_running : Int
  interest : Finset Nat
  open_fds : Finset Nat
  status : Status
deriving DecidableEq

/-- `void sigint_handler(int signo)`: the only assignment to `keep_running`
behind its initialisation with 1. -/
def sigint_handler (st : St) : St :=
  { st with keep_running := 0 }

/-- The listener branch of the event loop (lines 166-184). The kernel puts the
descriptor on the interest list when `epoll_ctl` succeeds. -/
def accept_client (epoll_fd server_fd : Nat) (e : Ev) (st : St) : Run St :=
  if e.acc.ret < 0 then
    { trace := [Event.accept server_fd, Event.perror "accept"], st := st }
  else
    let client_fd := e.acc.ret.toNat
    { trace := [Event.accept server_fd, Event.epoll_ctl_add epoll_fd client_fd],
      st := { st with
        open_fds := insert client_fd st.open_fds
        interest := if e.add < 0 then st.interest else insert client_fd st.interest } }

/-- The client branch of the event loop (lines 185-213). When the write loop
is left waiting in a `write`, so is the handler. -/
def serve_client (epoll_fd : Nat) (e : Ev) (st : St) : Run St :=
  let client_fd := e.fd
  if e.rd.n ≤ 0 then
    { trace := [Event.read client_fd (BUF_SIZE - 1), Event.epoll_ctl_del epoll_fd client_fd,
        Event.close client_fd],
      st := { st with
        interest := st.interest.erase client_fd, open_fds := st.open_fds.erase client_fd } }
  else if (safe_write client_fd resp.data resp.length e.wr).status = WStatus.pending then
    { trace := Event.read client_fd (BUF_SIZE - 1) ::
        (safe_write client_fd resp.data resp.length e.wr).trace,
      st := { st with status := Status.blocked } }
  else
    { trace := Event.read client_fd (BUF_SIZE - 1) ::
        ((safe_write client_fd resp.data resp.length e.wr).trace ++
          [Event.epoll_ctl_del epoll_fd client_fd, Event.close client_fd]),
      st := { st with
        interest := st.interest.erase client_fd, open_fds := st.open_fds.erase client_fd } }

/-- The loop `for (int i = 0; i < nready; i++)` over the entries still to be
handled. -/
def event_loop (epoll_fd server_fd : Nat) : List Ev → St → Run St
  | [], st => { trace := [], st := st }
  | e :: rest, st =>
    if e.fd = server_fd then
      if (accept_client epoll_fd server_fd e st).st.status = Status.running then
        (event_loop epoll_fd server_fd rest (accept_client epoll_fd server_fd e st).st).after
          (accept_client epoll_fd server_fd e st).trace
      else accept_client epoll_fd server_fd e st
    else
      if (serve_client epoll_fd e st).st.status = Status.running then
        (event_loop epoll_fd server_fd rest (serve_client epoll_fd e st).st).after
          (serve_client epoll_fd e st).trace
      else serve_client epoll_fd e st

/-- One pass through the body of `while (keep_running)` (lines 150-214). -/
def pass (epoll_fd server_fd : Nat) (w : Wake) (st : St) : Run St :=
  let st1 : St := if w.signal then sigint_handler st else st
  if w.nready < 0 then
    if w.errno = EINTR then
      { trace := [Event.epoll_wait epoll_fd MAX_EVENTS], st := st1 }
    else
      { trace := [Event.epoll_wait epoll_fd MAX_EVENTS, Event.perror "epoll_wait"],
        st := { st1 with status := Status.left } }
  else
    (event_loop epoll_fd server_fd (w.events.take w.nready.toNat) st1).after
      [Event.epoll_wait epoll_fd MAX_EVENTS]

/-- The loop `while (keep_running)` over the scripted wakes. -/
def serve (epoll_fd server_fd : Nat) : List Wake → St → Run St
  | [], st =>
    if st.keep_running ≠ 0 then
      { trace := [Event.epoll_wait epoll_fd MAX_EVENTS],
        st := { st with status := Status.blocked } }
    else { trace := [], st := { st with status := Status.left } }
  | w :: rest, st =>
    if st.keep_running ≠ 0 then
      if (pass epoll_fd server_fd w st).st.status = Status.running then
        (serve epoll_fd server_fd rest (pass epoll_fd server_fd w st).st).after
          (pass epoll_fd server_fd w st).trace
      else pass epoll_fd server_fd w st
    else { trace := [], st := { st with status := Status.left } }

/-- The state at the head of the loop after the given passes, when control
gets there. -/
def at_head (epoll_fd server_fd : Nat) : List Wake → St → Option St
  | [], st => some st
  | w :: rest, st =>
    if st.keep_running ≠ 0 ∧ (pass epoll_fd server_fd w st).st.status = Status.running then
      at_head epoll_fd server_fd rest (pass epoll_fd server_fd w st).st
    else none

/-- The code behind the loop (lines 218-221). Closing the epoll instance
discards its interest list. -/
def finish (epoll_fd server_fd : Nat) (st : St) : Run St :=
  { trace := [Event.printf "Shutting down server.", Event.close epoll_fd, Event.close server_fd],
    st := { st with
      interest := ∅
      open_fds := (st.open_fds.erase epoll_fd).erase server_fd
      status := Status.returned EXIT_SUCCESS } }

/-- The loop followed by the code behind it. -/
def serve_and_exit (epoll_fd server_fd : Nat) (wakes : List Wake) (st : St) : Run St :=
  if (serve epoll_fd server_fd wakes st).st.status = Status.left then
    (finish epoll_fd server_fd (serve epoll_fd server_fd wakes st).st).after
      (serve epoll_fd server_fd wakes st).trace
  else serve epoll_fd server_fd wakes st

/-- The state in which `main` gives up during start-up with the given status. -/
def halted (s : Status) : St :=
  { keep_running := 1, interest := ∅, open_fds := ∅, status := s }

/-- The state set up in lines 123-142, with `keep_running` at its initial value. -/
def fresh (epoll_fd server_fd : Nat) : St :=
  { keep_running := 1, interest := {server_fd}, open_fds := {server_fd, epoll_fd},
    status := Status.running }

/-- The state in which the loop is entered: `sig` tells whether a
SIGINT/SIGTERM handler has run by then. -/
def init (epoll_fd server_fd : Nat) (sig : Bool) : St :=
  if sig then sigint_handler (fresh epoll_fd server_fd) else fresh epoll_fd server_fd

/-- The part of `main` behind the port check, with the value of `port`. -/
def start (port : Int) (boot : Boot) (wakes : List Wake) : Run St :=
  if boot.socket < 0 then
    { trace := [Event.signal "SIGPIPE", Event.signal "SIGINT", Event.signal "SIGTERM",
        Event.socket, Event.perror "socket"],
      st := halted (Status.exited EXIT_FAILURE) }
  else
    let server_fd := boot.socket.toNat
    let pre := [Event.signal "SIGPIPE", Event.signal "SIGINT", Event.signal "SIGTERM",
      Event.socket, Event.setsockopt server_fd]
    if boot.setsockopt < 0 then
      { trace := pre ++ [Event.perror "setsockopt", Event.close server_fd],
        st := halted (Status.exited EXIT_FAILURE) }
    else if boot.bind < 0 then
      { trace := pre ++ [Event.bind server_fd (port % 65536), Event.perror "bind",
          Event.close server_fd],
        st := halted (Status.exited EXIT_FAILURE) }
    else if boot.listen < 0 then
      { trace := pre ++ [Event.bind server_fd (port % 65536), Event.listen server_fd BACKLOG,
          Event.perror "listen", Event.close server_fd],
        st := halted (Status.exited EXIT_FAILURE) }
    else if boot.epoll_create1 < 0 then
      { trace := pre ++ [Event.bind server_fd (port % 65536), Event.listen server_fd BACKLOG,
          Event.epoll_create1, Event.perror "epoll_create1", Event.close server_fd],
        st := halted (Status.exited EXIT_FAILURE) }
    else
      let epoll_fd := boot.epoll_create1.toNat
      if boot.epoll_ctl < 0 then
        { trace := pre ++ [Event.bind server_fd (port % 65536), Event.listen server_fd BACKLOG,
            Event.epoll_create1, Event.epoll_ctl_add epoll_fd server_fd,
            Event.perror "epoll_ctl: listen_sock", Event.close server_fd, Event.close epoll_fd],
          st := halted (Status.exited EXIT_FAILURE) }
      else
        (serve_and_exit epoll_fd server_fd wakes (init epoll_fd server_fd boot.signal)).after
          (pre ++ [Event.bind server_fd (port % 65536), Event.listen server_fd BACKLOG,
            Event.epoll_create1, Event.epoll_ctl_add epoll_fd server_fd,
            Event.printf "Server listening"])

/-- `int main(int argc, char *argv[])`: `arg` is `atoi(argv[1])` when an
argument is given (`argc > 1`). -/
def main (arg : Option Int) (boot : Boot) (wakes : List Wake) : Run St :=
  match arg with
  | none => start DEFAULT_PORT boot wakes
  | some port =>
    if port ≤ 0 ∨ port > 65535 then
      { trace := [Event.fprintf_stderr "Invalid port"],
        st := halted (Status.returned EXIT_FAILURE) }
    else start port boot wakes

end WebServers.Epoll

namespace WebServers

/-! Facts about the write loop. -/

theorem epoll_safe_write_loop_eq (fd : Nat) (buf : List Char) (len : Nat)
    (script : List SysRet) (off : Nat) :
    Epoll.safe_write_loop fd buf len script off = Select.safe_write_loop fd buf len script off := by
  induction script generalizing off with
  | nil => simp [Epoll.safe_write_loop, Select.safe_write_loop]
  | cons r rest ih => simp [Epoll.safe_write_loop, Select.safe_write_loop, ih]

theorem window_take (buf : List Char) (len off k : Nat) (hk : k ≤ len - off) :
    (window buf len off).take k = (buf.drop off).take k := by
  simp [window, List.take_take, Nat.min_eq_left hk]

theorem accepted_cons_pos (r : SysRet) (rest : List SysRet) (h : 0 < r.ret) :
    accepted (r :: rest) = r.ret.toNat + accepted rest := by
  simp [accepted, h]

theorem accepted_cons_nonpos (r : SysRet) (rest : List SysRet) (h : ¬ 0 < r.ret) :
    accepted (r :: rest) = accepted rest := by
  simp [accepted, h]

theorem loop_step_accept (fd : Nat) (buf : List Char) (len : Nat) (r : SysRet)
    (rest : List SysRet) (off : Nat) (hlt : off < len) (hpos : 0 < r.ret) :
    Select.safe_write_loop fd buf len (r :: rest) off =
      (Select.safe_write_loop fd buf len rest (off + r.ret.toNat)).after
        (Event.write fd (window buf len off)) ((window buf len off).take r.ret.toNat) := by
  simp [Select.safe_write_loop, hlt, hpos]

theorem loop_step_eintr (fd : Nat) (buf : List Char) (len : Nat) (r : SysRet)
    (rest : List SysRet) (off : Nat) (hlt : off < len) (hm1 : r.ret = -1)
    (herr : r.errno = EINTR) :
    Select.safe_write_loop fd buf len (r :: rest) off =
      (Select.safe_write_loop fd buf len rest off).after
        (Event.write fd (window buf len off)) [] := by
  simp [Select.safe_write_loop, hlt, hm1, herr]

theorem loop_step_fail (fd : Nat) (buf : List Char) (len : Nat) (r : SysRet)
    (rest : List SysRet) (off : Nat) (hlt : off < len) (hnp : ¬ 0 < r.ret)
    (hne : ¬ (r.ret = -1 ∧ r.errno = EINTR)) :
    Select.safe_write_loop fd buf len (r :: rest) off =
      { trace := [Event.write fd (window buf len off), Event.perror "write"],
        off := off, sent := [], status := WStatus.failed } := by
  simp only [Select.safe_write_loop, hlt, hnp, hne, if_true, if_false]

/-- A run over good answers: offsets, bytes sent, and how it stands. -/
theorem loop_good (fd : Nat) (buf : List Char) (len : Nat) (script : List SysRet) (off : Nat)
    (h : goodAnswers len off script = true) :
    (∀ i, i < script.length →
        (Select.safe_write_loop fd buf len script off).trace[i]? =
          some (Event.write fd (window buf len (off + accepted (script.take i))))) ∧
      (off + accepted script < len →
        (Select.safe_write_loop fd buf len script off).trace[script.length]? =
          some (Event.write fd (window buf len (off + accepted script)))) ∧
      (Select.safe_write_loop fd buf len script off).trace.length =
        script.length + (if off + accepted script < len then 1 else 0) ∧
      (Select.safe_write_loop fd buf len script off).off = off + accepted script ∧
      (Select.safe_write_loop fd buf len script off).sent = (buf.drop off).take (accepted script) ∧
      (Select.safe_write_loop fd buf len script off).status =
        (if off + accepted script < len then WStatus.pending else WStatus.done) ∧
      (off ≤ len → off + accepted script ≤ len) := by
  induction script generalizing off with
  | nil =>
    by_cases hlt : off < len <;> simp [Select.safe_write_loop, accepted, hlt]
  | cons r rest ih =>
    simp only [goodAnswers, Bool.and_eq_true, Bool.or_eq_true, decide_eq_true_eq] at h
    obtain ⟨hlt, hcase⟩ := h
    rcases hcase with ⟨⟨hpos, hle⟩, hrest⟩ | ⟨⟨hm1, herr⟩, hrest⟩
    · have hk : r.ret.toNat ≤ len - off := by omega
      obtain ⟨h1, h2, h3, h4, h5, h6, h7⟩ := ih (off + r.ret.toNat) hrest
      rw [loop_step_accept fd buf len r rest off hlt hpos, accepted_cons_pos r rest hpos]
      simp only [WriteRun.after, ← Nat.add_assoc]
      refine ⟨?_, ?_, ?_, ?_, ?_, ?_, ?_⟩
      · intro i hi
        cases i with
        | zero => simp [accepted]
        | succ j =>
          simp only [List.length_cons, Nat.add_lt_add_iff_right] at hi
          simp only [List.getElem?_cons_succ, List.take_succ_cons]
          rw [h1 j hi, accepted_cons_pos r _ hpos, Nat.add_assoc]
      · intro hl
        simp only [List.length_cons, List.getElem?_cons_succ]
        rw [h2 hl]
      · simp only [List.length_cons, h3]; omega
      · exact h4
      · rw [h5, window_take buf len off _ hk, List.take_add, List.drop_drop]
      · exact h6
      · intro _
        exact h7 (by omega)
    · have hnp : ¬ (0 < r.ret) := by omega
      obtain ⟨h1, h2, h3, h4, h5, h6, h7⟩ := ih off hrest
      rw [loop_step_eintr fd buf len r rest off hlt hm1 herr, accepted_cons_nonpos r rest hnp]
      simp only [WriteRun.after]
      refine ⟨?_, ?_, ?_, ?_, ?_, ?_, ?_⟩
      · intro i hi
        cases i with
        | zero => simp [accepted]
        | succ j =>
          simp only [List.length_cons, Nat.add_lt_add_iff_right] at hi
          simp only [List.getElem?_cons_succ, List.take_succ_cons]
          rw [h1 j hi, accepted_cons_nonpos r _ hnp]
      · intro hl
        simp only [List.length_cons, List.getElem?_cons_succ]
        rw [h2 hl]
      · simp only [List.length_cons, h3]; omega
      · exact h4
      · simpa using h5
      · exact h6
      · exact h7

theorem goodAnswers_count (len : Nat) (script : List SysRet) (off : Nat)
    (h : goodAnswers len off script = true) :
    off + (script.filter fun r => decide (0 < r.ret)).length ≤ off + accepted script := by
  induction script generalizing off with
  | nil => simp [accepted]
  | cons r rest ih =>
    simp only [goodAnswers, Bool.and_eq_true, Bool.or_eq_true, decide_eq_true_eq] at h
    obtain ⟨_, hcase⟩ := h
    rcases hcase with ⟨⟨hpos, _⟩, hrest⟩ | ⟨⟨hm1, _⟩, hrest⟩
    · have := ih (off + r.ret.toNat) hrest
      rw [accepted_cons_pos r rest hpos]
      simp only [List.filter_cons, hpos, decide_True, if_true, List.length_cons]
      omega
    · have hnp : ¬ (0 < r.ret) := by omega
      have := ih off hrest
      rw [accepted_cons_nonpos r rest hnp]
      simp only [List.filter_cons, hnp, decide_False]
      simpa using this

theorem writeCount_cons_write (fd : Nat) (bytes : List Char) (tr : List Event) :
    writeCount (Event.write fd bytes :: tr) = writeCount tr + 1 := by
  simp [writeCount]

/-- A run that meets a zero return or a failure other than `EINTR` after good answers. -/
theorem loop_bad (fd : Nat) (buf : List Char) (len : Nat) (pre : List SysRet) (bad : SysRet)
    (post : List SysRet) (off : Nat) (h : goodAnswers len off pre = true)
    (hlt : off + accepted pre < len)
    (hbad : bad.ret = 0 ∨ (bad.ret = -1 ∧ bad.errno ≠ EINTR)) :
    (∀ i, i < pre.length →
        (Select.safe_write_loop fd buf len (pre ++ bad :: post) off).trace[i]? =
          some (Event.write fd (window buf len (off + accepted (pre.take i))))) ∧
      (Select.safe_write_loop fd buf len (pre ++ bad :: post) off).trace[pre.length]? =
        some (Event.write fd (window buf len (off + accepted pre))) ∧
      (Select.safe_write_loop fd buf len (pre ++ bad :: post) off).trace[pre.length + 1]? =
        some (Event.perror "write") ∧
      (Select.safe_write_loop fd buf len (pre ++ bad :: post) off).trace.length = pre.length + 2 ∧
      writeCount (Select.safe_write_loop fd buf len (pre ++ bad :: post) off).trace =
        pre.length + 1 ∧
      (Select.safe_write_loop fd buf len (pre ++ bad :: post) off).off = off + accepted pre ∧
      (Select.safe_write_loop fd buf len (pre ++ bad :: post) off).sent =
        (buf.drop off).take (accepted pre) ∧
      (Select.safe_write_loop fd buf len (pre ++ bad :: post) off).status = WStatus.failed := by
  induction pre generalizing off with
  | nil =>
    simp only [accepted, Nat.add_zero] at hlt
    have hnp : ¬ (0 < bad.ret) := by rcases hbad with h0 | ⟨h1, _⟩ <;> omega
    have hne : ¬ (bad.ret = -1 ∧ bad.errno = EINTR) := by
      rcases hbad with h0 | ⟨_, h2⟩
      · intro hc; omega
      · intro hc; exact h2 hc.2
    rw [List.nil_append, loop_step_fail fd buf len bad post off hlt hnp hne]
    simp [accepted, writeCount]
  | cons r rest ih =>
    simp only [goodAnswers, Bool.and_eq_true, Bool.or_eq_true, decide_eq_true_eq] at h
    obtain ⟨hlt0, hcase⟩ := h
    rcases hcase with ⟨⟨hpos, hle⟩, hrest⟩ | ⟨⟨hm1, herr⟩, hrest⟩
    · have hk : r.ret.toNat ≤ len - off := by omega
      rw [accepted_cons_pos r rest hpos, ← Nat.add_assoc] at hlt
      obtain ⟨h1, h2, h3, h4, h5, h6, h7, h8⟩ := ih (off + r.ret.toNat) hrest hlt
      rw [List.cons_append, loop_step_accept fd buf len r _ off hlt0 hpos,
        accepted_cons_pos r rest hpos]
      simp only [WriteRun.after, ← Nat.add_assoc, writeCount_cons_write]
      refine ⟨?_, ?_, ?_, ?_, ?_, ?_, ?_, ?_⟩
      · intro i hi
        cases i with
        | zero => simp [accepted]
        | succ j =>
          simp only [List.length_cons, Nat.add_lt_add_iff_right] at hi
          simp only [List.getElem?_cons_succ, List.take_succ_cons]
          rw [h1 j hi, accepted_cons_pos r _ hpos, Nat.add_assoc]
      · simp only [List.length_cons, List.getElem?_cons_succ]
        exact h2
      · simp only [List.length_cons, List.getElem?_cons_succ]
        exact h3
      · simp only [List.length_cons, h4]
      · simp only [List.length_cons, h5]
      · exact h6
      · rw [h7, window_take buf len off _ hk, List.take_add, List.drop_drop]
      · exact h8
    · have hnp : ¬ (0 < r.ret) := by omega
      rw [accepted_cons_nonpos r rest hnp] at hlt
      obtain ⟨h1, h2, h3, h4, h5, h6, h7, h8⟩ := ih off hrest hlt
      rw [List.cons_append, loop_step_eintr fd buf len r _ off hlt0 hm1 herr,
        accepted_cons_nonpos r rest hnp]
      simp only [WriteRun.after, writeCount_cons_write]
      refine ⟨?_, ?_, ?_, ?_, ?_, ?_, ?_, ?_⟩
      · intro i hi
        cases i with
        | zero => simp [accepted]
        | succ j =>
          simp only [List.length_cons, Nat.add_lt_add_iff_right] at hi
          simp only [List.getElem?_cons_succ, List.take_succ_cons]
          rw [h1 j hi, accepted_cons_nonpos r _ hnp]
      · simp only [List.length_cons, List.getElem?_cons_succ]
        exact h2
      · simp only [List.length_cons, List.getElem?_cons_succ]
        exact h3
      · simp only [List.length_cons, h4]
      · simp only [List.length_cons, h5]
      · exact h6
      · simpa using h7
      · exact h8

/-- C3: `safe_write` of the select and of the epoll server, on a buffer of
`len` bytes. When every answer accepts `k` bytes with `1 <= k <= len - off` or
fails with `EINTR`: call number `i` is issued at the offset equal to the bytes
accepted before it, with length `len - off`; the bytes accepted are the first
`off` bytes of the buffer in order; at most `len` answers accept bytes; the run
has ended normally exactly when the accepted bytes add up to `len`, and then
the bytes sent are the whole buffer, while otherwise one more call is waiting
for its answer. When after such answers a call returns 0 or fails with another
`errno`, that call is the last `write` issued and the bytes sent so far are the
first `off` bytes of the buffer. -/
theorem C3_safe_write
    (sw : Nat → List Char → Nat → List SysRet → WriteRun)
    (hsw : sw = Select.safe_write ∨ sw = Epoll.safe_write)
    (fd : Nat) (buf : List Char) :
    (∀ script, goodAnswers buf.length 0 script = true →
      (∀ i, i < script.length →
        (sw fd buf buf.length script).trace[i]? =
          some (Event.write fd (window buf buf.length (accepted (script.take i))))) ∧
      (sw fd buf buf.length script).trace.length =
        script.length + (if accepted script < buf.length then 1 else 0) ∧
      (accepted script < buf.length →
        (sw fd buf buf.length script).trace[script.length]? =
          some (Event.write fd (window buf buf.length (accepted script))) ∧
        (sw fd buf buf.length script).status = WStatus.pending) ∧
      (sw fd buf buf.length script).off = accepted script ∧
      accepted script ≤ buf.length ∧
      (sw fd buf buf.length script).sent = buf.take (accepted script) ∧
      (script.filter fun r => decide (0 < r.ret)).length ≤ buf.length ∧
      ((sw fd buf buf.length script).status = WStatus.done ↔ accepted script = buf.length) ∧
      (accepted script = buf.length → (sw fd buf buf.length script).sent = buf)) ∧
    (∀ pre bad post, goodAnswers buf.length 0 pre = true → accepted pre < buf.length →
      (bad.ret = 0 ∨ (bad.ret = -1 ∧ bad.errno ≠ EINTR)) →
      (sw fd buf buf.length (pre ++ bad :: post)).status = WStatus.failed ∧
      (sw fd buf buf.length (pre ++ bad :: post)).trace[pre.length]? =
        some (Event.write fd (window buf buf.length (accepted pre))) ∧
      writeCount (sw fd buf buf.length (pre ++ bad :: post)).trace = pre.length + 1 ∧
      (sw fd buf buf.length (pre ++ bad :: post)).trace.length = pre.length + 2 ∧
      (sw fd buf buf.length (pre ++ bad :: post)).sent = buf.take (accepted pre) ∧
      ∃ tail, buf = (sw fd buf buf.length (pre ++ bad :: post)).sent ++ tail) := by
  have hsel : sw = Select.safe_write := by
    rcases hsw with h | h
    · exact h
    · rw [h]
      funext a b c d
      exact epoll_safe_write_loop_eq a b c d 0
  subst hsel
  constructor
  · intro script hgood
    obtain ⟨h1, h2, h3, h4, h5, h6, h7⟩ := loop_good fd buf buf.length script 0 hgood
    simp only [Nat.zero_add, List.drop_zero] at h1 h2 h3 h4 h5 h6 h7
    have hle : accepted script ≤ buf.length := h7 (Nat.zero_le _)
    have hcnt := goodAnswers_count buf.length script 0 hgood
    simp only [Nat.zero_add] at hcnt
    refine ⟨h1, h3, ?_, h4, hle, h5, le_trans hcnt hle, ?_, ?_⟩
    · intro hlt
      refine ⟨h2 hlt, ?_⟩
      show (Select.safe_write_loop fd buf buf.length script 0).status = WStatus.pending
      rw [h6, if_pos hlt]
    · show (Select.safe_write_loop fd buf buf.length script 0).status = WStatus.done ↔ _
      rw [h6]
      by_cases hlt : accepted script < buf.length
      · simp [hlt]; omega
      · simp [hlt]; omega
    · intro heq
      show (Select.safe_write_loop fd buf buf.length script 0).sent = buf
      rw [h5, heq, List.take_length]
  · intro pre bad post hgood hlt hbad
    obtain ⟨_, h2, _, h4, h5, _, h7, h8⟩ :=
      loop_bad fd buf buf.length pre bad post 0 hgood (by simpa using hlt) hbad
    simp only [Nat.zero_add, List.drop_zero] at h2 h4 h5 h7 h8
    refine ⟨h8, h2, h5, h4, h7, ?_⟩
    refine ⟨buf.drop (accepted pre), ?_⟩
    show buf = (Select.safe_write_loop fd buf buf.length (pre ++ bad :: post) 0).sent ++ _
    rw [h7, List.take_append_drop]

/-- The epoll server writing "abcde": three bytes accepted, an interrupted call, two
bytes accepted; and the select server meeting a zero return after three bytes. -/
theorem C3_safe_write_witness :
    (goodAnswers 5 0 [⟨3, 0⟩, ⟨-1, 4⟩, ⟨2, 0⟩] = true ∧
      (Epoll.safe_write 7 ['a', 'b', 'c', 'd', 'e'] 5 [⟨3, 0⟩, ⟨-1, 4⟩, ⟨2, 0⟩]).sent =
        ['a', 'b', 'c', 'd', 'e']) ∧
    (goodAnswers 5 0 [⟨3, 0⟩] = true ∧ accepted [⟨3, 0⟩] < 5 ∧
      (Select.safe_write 7 ['a', 'b', 'c', 'd', 'e'] 5 ([⟨3, 0⟩] ++ ⟨0, 0⟩ :: [⟨2, 0⟩])).status =
        WStatus.failed) :=
  ⟨⟨by decide,
    ((C3_safe_write Epoll.safe_write (Or.inr rfl) 7 ['a', 'b', 'c', 'd', 'e']).1
      [⟨3, 0⟩, ⟨-1, 4⟩, ⟨2, 0⟩] (by decide)).2.2.2.2.2.2.2.2 (by decide)⟩,
    ⟨by decide, by decide,
      ((C3_safe_write Select.safe_write (Or.inl rfl) 7 ['a', 'b', 'c', 'd', 'e']).2
        [⟨3, 0⟩] ⟨0, 0⟩ [⟨2, 0⟩] (by decide) (by decide) (Or.inl rfl)).1⟩⟩

end WebServers

namespace WebServers

/-! Start-up. -/

theorem fork_start_spec (port : Int) (boot : Fork.Boot) (turns : List Fork.Turn) :
    (Event.socket ∈ (Fork.start port boot turns).trace ∨
      (Fork.start port boot turns).st.status = Status.exited EXIT_FAILURE) ∧
    (∀ q, boundPort (Fork.start port boot turns).trace = some q → q = port % 65536) ∧
    (boot.sigaction ≠ -1 → 0 ≤ boot.socket → 0 ≤ boot.setsockopt →
      boundPort (Fork.start port boot turns).trace = some (port % 65536)) := by
  by_cases h1 : boot.sigaction = -1 <;> by_cases h2 : boot.socket < 0 <;>
    by_cases h3 : boot.setsockopt < 0 <;> by_cases h4 : boot.bind < 0 <;>
    by_cases h5 : boot.listen < 0 <;>
    simp [Fork.start, h1, h2, h3, h4, h5, Run.after, Fork.halted, boundPort]

theorem select_start_spec (port : Int) (boot : Select.Boot) (wakes : List Select.Wake) :
    Event.socket ∈ (Select.start port boot wakes).trace ∧
    (∀ q, boundPort (Select.start port boot wakes).trace = some q → q = port % 65536) ∧
    (0 ≤ boot.socket → 0 ≤ boot.setsockopt →
      boundPort (Select.start port boot wakes).trace = some (port % 65536)) := by
  by_cases h2 : boot.socket < 0 <;>
    by_cases h3 : boot.setsockopt < 0 <;> by_cases h4 : boot.bind < 0 <;>
    by_cases h5 : boot.listen < 0 <;> by_cases h6 : FD_SETSIZE ≤ boot.socket.toNat <;>
    simp [Select.start, h2, h3, h4, h5, h6, Run.after, Select.halted, boundPort]

theorem epoll_start_spec (port : Int) (boot : Epoll.Boot) (wakes : List Epoll.Wake) :
    Event.socket ∈ (Epoll.start port boot wakes).trace ∧
    (∀ q, boundPort (Epoll.start port boot wakes).trace = some q → q = port % 65536) ∧
    (0 ≤ boot.socket → 0 ≤ boot.setsockopt →
      boundPort (Epoll.start port boot wakes).trace = some (port % 65536)) := by
  by_cases h2 : boot.socket < 0 <;>
    by_cases h3 : boot.setsockopt < 0 <;> by_cases h4 : boot.bind < 0 <;>
    by_cases h5 : boot.listen < 0 <;> by_cases h6 : boot.epoll_create1 < 0 <;>
    by_cases h7 : boot.epoll_ctl < 0 <;>
    simp [Epoll.start, h2, h3, h4, h5, h6, h7, Run.after, Epoll.halted, boundPort]

/-- C1: in each server `main` returns a non-zero status without having called
`socket` exactly when the argument value `p` satisfies `p <= 0` or `p > 65535`;
for `1 <= p <= 65535` the check passes (start-up goes on with `port = p`) and
`p` is the port handed to `bind`; without an argument the port is 8080. -/
theorem C1_port_check (p : Int) :
    (∀ boot turns,
      ((∃ c, c ≠ 0 ∧ (Fork.main (some p) boot turns).st.status = Status.returned c) ∧
        Event.socket ∉ (Fork.main (some p) boot turns).trace) ↔ (p ≤ 0 ∨ p > 65535)) ∧
    (∀ boot wakes,
      ((∃ c, c ≠ 0 ∧ (Select.main (some p) boot wakes).st.status = Status.returned c) ∧
        Event.socket ∉ (Select.main (some p) boot wakes).trace) ↔ (p ≤ 0 ∨ p > 65535)) ∧
    (∀ boot wakes,
      ((∃ c, c ≠ 0 ∧ (Epoll.main (some p) boot wakes).st.status = Status.returned c) ∧
        Event.socket ∉ (Epoll.main (some p) boot wakes).trace) ↔ (p ≤ 0 ∨ p > 65535)) ∧
    (1 ≤ p ∧ p ≤ 65535 →
      (∀ boot turns, Fork.main (some p) boot turns = Fork.start p boot turns ∧
        (∀ q, boundPort (Fork.main (some p) boot turns).trace = some q → q = p) ∧
        (boot.sigaction ≠ -1 → 0 ≤ boot.socket → 0 ≤ boot.setsockopt →
          boundPort (Fork.main (some p) boot turns).trace = some p)) ∧
      (∀ boot wakes, Select.main (some p) boot wakes = Select.start p boot wakes ∧
        (∀ q, boundPort (Select.main (some p) boot wakes).trace = some q → q = p) ∧
        (0 ≤ boot.socket → 0 ≤ boot.setsockopt →
          boundPort (Select.main (some p) boot wakes).trace = some p)) ∧
      (∀ boot wakes, Epoll.main (some p) boot wakes = Epoll.start p boot wakes ∧
        (∀ q, boundPort (Epoll.main (some p) boot wakes).trace = some q → q = p) ∧
        (0 ≤ boot.socket → 0 ≤ boot.setsockopt →
          boundPort (Epoll.main (some p) boot wakes).trace = some p))) ∧
    (∀ boot turns, Fork.main none boot turns = Fork.start 8080 boot turns ∧
      (boot.sigaction ≠ -1 → 0 ≤ boot.socket → 0 ≤ boot.setsockopt →
        boundPort (Fork.main none boot turns).trace = some 8080)) ∧
    (∀ boot wakes, Select.main none boot wakes = Select.start 8080 boot wakes ∧
      (0 ≤ boot.socket → 0 ≤ boot.setsockopt →
        boundPort (Select.main none boot wakes).trace = some 8080)) ∧
    (∀ boot wakes, Epoll.main none boot wakes = Epoll.start 8080 boot wakes ∧
      (0 ≤ boot.socket → 0 ≤ boot.setsockopt →
        boundPort (Epoll.main none boot wakes).trace = some 8080)) := by
  refine ⟨?_, ?_, ?_, ?_, ?_, ?_, ?_⟩
  · intro boot turns
    constructor
    · rintro ⟨⟨c, hc, hst⟩, hsock⟩
      by_contra hp
      have hm : Fork.main (some p) boot turns = Fork.start p boot turns := by
        simp [Fork.main, hp]
      rw [hm] at hst hsock
      rcases (fork_start_spec p boot turns).1 with h | h
      · exact hsock h
      · rw [h] at hst; cases hst
    · intro hp
      simp [Fork.main, hp, Fork.halted, EXIT_FAILURE]
  · intro boot wakes
    constructor
    · rintro ⟨_, hsock⟩
      by_contra hp
      have hm : Select.main (some p) boot wakes = Select.start p boot wakes := by
        simp [Select.main, hp]
      rw [hm] at hsock
      exact hsock (select_start_spec p boot wakes).1
    · intro hp
      simp [Select.main, hp, Select.halted, EXIT_FAILURE]
  · intro boot wakes
    constructor
    · rintro ⟨_, hsock⟩
      by_contra hp
      have hm : Epoll.main (some p) boot wakes = Epoll.start p boot wakes := by
        simp [Epoll.main, hp]
      rw [hm] at hsock
      exact hsock (epoll_start_spec p boot wakes).1
    · intro hp
      simp [Epoll.main, hp, Epoll.halted, EXIT_FAILURE]
  · rintro ⟨h1, h2⟩
    have hp : ¬ (p ≤ 0 ∨ p > 65535) := by omega
    have hmod : p % 65536 = p := by omega
    refine ⟨?_, ?_, ?_⟩
    · intro boot turns
      have hm : Fork.main (some p) boot turns = Fork.start p boot turns := by
        simp [Fork.main, hp]
      have hs := fork_start_spec p boot turns
      rw [hmod] at hs
      rw [hm]
      exact ⟨rfl, hs.2.1, hs.2.2⟩
    · intro boot wakes
      have hm : Select.main (some p) boot wakes = Select.start p boot wakes := by
        simp [Select.main, hp]
      have hs := select_start_spec p boot wakes
      rw [hmod] at hs
      rw [hm]
      exact ⟨rfl, hs.2.1, hs.2.2⟩
    · intro boot wakes
      have hm : Epoll.main (some p) boot wakes = Epoll.start p boot wakes := by
        simp [Epoll.main, hp]
      have hs := epoll_start_spec p boot wakes
      rw [hmod] at hs
      rw [hm]
      exact ⟨rfl, hs.2.1, hs.2.2⟩
  · intro boot turns
    exact ⟨rfl, (fork_start_spec 8080 boot turns).2.2⟩
  · intro boot wakes
    exact ⟨rfl, (select_start_spec 8080 boot wakes).2.2⟩
  · intro boot wakes
    exact ⟨rfl, (epoll_start_spec 8080 boot wakes).2.2⟩

/-- The select server started with the argument 8081 hands 8081 to `bind`. -/
theorem C1_port_check_witness :
    (1 : Int) ≤ 8081 ∧ (8081 : Int) ≤ 65535 ∧
      boundPort (Select.main (some 8081)
        { socket := 3, setsockopt := 0, bind := 0, listen := 0, signal := false } []).trace =
        some 8081 :=
  ⟨by decide, by decide,
    (((C1_port_check 8081).2.2.2.1 ⟨by decide, by decide⟩).2.1
      { socket := 3, setsockopt := 0, bind := 0, listen := 0, signal := false } []).2.2
      (by decide) (by decide)⟩

end WebServers

namespace WebServers

/-! The fixed response. -/

theorem written_append (fd : Nat) (xs ys : List Event) :
    written fd (xs ++ ys) = written fd xs ++ written fd ys := by
  induction xs with
  | nil => rfl
  | cons e rest ih =>
    cases e with
    | write g bytes =>
      simp only [List.cons_append, written]
      split <;> simp [ih]
    | _ => simpa [written] using ih

/-- The first call of the write loop on a non-empty buffer hands over the whole buffer. -/
theorem safe_write_first (fd : Nat) (buf : List Char) (script : List SysRet)
    (h : 0 < buf.length) :
    (written fd (Select.safe_write fd buf buf.length script).trace).head? = some buf := by
  cases script with
  | nil => simp [Select.safe_write, Select.safe_write_loop, h, written, window]
  | cons r rest =>
    by_cases hpos : 0 < r.ret
    · simp [Select.safe_write, Select.safe_write_loop, h, hpos, written, WriteRun.after, window]
    · by_cases he : r.ret = -1 ∧ r.errno = EINTR
      · simp [Select.safe_write, Select.safe_write_loop, h, hpos, he, written, WriteRun.after,
          window]
      · simp [Select.safe_write, Select.safe_write_loop, h, hpos, he, written, window]

/-- C2: what the handler of each server hands to `write` depends only on the
sign of the result `n` of its single `read`: for `n <= 0` no `write` is issued;
for `1 <= n <= 4095`, whatever bytes were read, the fork handler issues one
`write` of exactly the header, its body line and a newline, and the select and
epoll handlers hand exactly that sequence to their write loop, whose first
`write` submits all of it; the handler's calls are the same for every other
positive `n` and every other content. -/
theorem C2_response_fixed (fd : Nat) (rd : ReadRet) :
    (∀ wr,
      (rd.n ≤ 0 → writeCount (Fork.handle_client fd rd wr) = 0) ∧
      (1 ≤ rd.n ∧ rd.n ≤ 4095 →
        written fd (Fork.handle_client fd rd wr) =
          [("HTTP/1.1 200 OK\r\nContent-Type: text/plain\r\nConnection: close\r\n\r\n" ++
            "Hello from fork server!" ++ "\n").data] ∧
        ∀ rd2 : ReadRet, 1 ≤ rd2.n →
          Fork.handle_client fd rd2 wr = Fork.handle_client fd rd wr)) ∧
    (∀ ws st,
      (rd.n ≤ 0 → writeCount (Select.serve_client fd rd ws st).trace = 0) ∧
      (1 ≤ rd.n ∧ rd.n ≤ 4095 →
        written fd (Select.serve_client fd rd ws st).trace =
          written fd (Select.safe_write fd
            ("HTTP/1.1 200 OK\r\nContent-Type: text/plain\r\nConnection: close\r\n\r\n" ++
              "Hello from select server!" ++ "\n").data 90 ws).trace ∧
        (written fd (Select.serve_client fd rd ws st).trace).head? =
          some ("HTTP/1.1 200 OK\r\nContent-Type: text/plain\r\nConnection: close\r\n\r\n" ++
            "Hello from select server!" ++ "\n").data ∧
        ∀ rd2 : ReadRet, 1 ≤ rd2.n →
          Select.serve_client fd rd2 ws st = Select.serve_client fd rd ws st)) ∧
    (∀ epoll_fd (e : Epoll.Ev) st, e.fd = fd → e.rd = rd →
      (rd.n ≤ 0 → writeCount (Epoll.serve_client epoll_fd e st).trace = 0) ∧
      (1 ≤ rd.n ∧ rd.n ≤ 4095 →
        written fd (Epoll.serve_client epoll_fd e st).trace =
          written fd (Epoll.safe_write fd
            ("HTTP/1.1 200 OK\r\nContent-Type: text/plain\r\nConnection: close\r\n\r\n" ++
              "Hello from epoll server!" ++ "\n").data 89 e.wr).trace ∧
        (written fd (Epoll.serve_client epoll_fd e st).trace).head? =
          some ("HTTP/1.1 200 OK\r\nContent-Type: text/plain\r\nConnection: close\r\n\r\n" ++
            "Hello from epoll server!" ++ "\n").data ∧
        ∀ rd2 : ReadRet, 1 ≤ rd2.n →
          Epoll.serve_client epoll_fd { e with rd := rd2 } st =
            Epoll.serve_client epoll_fd e st)) := by
  have hfork : Fork.resp.data.take Fork.resp.length =
      ("HTTP/1.1 200 OK\r\nContent-Type: text/plain\r\nConnection: close\r\n\r\n" ++
        "Hello from fork server!" ++ "\n").data := by rfl
  have hsel : Select.resp.data =
      ("HTTP/1.1 200 OK\r\nContent-Type: text/plain\r\nConnection: close\r\n\r\n" ++
        "Hello from select server!" ++ "\n").data := by rfl
  have hsell : Select.resp.length = 90 := by rfl
  have hep : Epoll.resp.data =
      ("HTTP/1.1 200 OK\r\nContent-Type: text/plain\r\nConnection: close\r\n\r\n" ++
        "Hello from epoll server!" ++ "\n").data := by rfl
  have hepl : Epoll.resp.length = 89 := by rfl
  refine ⟨?_, ?_, ?_⟩
  · intro wr
    constructor
    · intro hn
      have : ¬ (0 < rd.n) := by omega
      simp [Fork.handle_client, this, writeCount]
    · rintro ⟨h1, _⟩
      have hpos : 0 < rd.n := by omega
      constructor
      · rw [← hfork]
        by_cases hw : wr.ret = -1 <;> simp [Fork.handle_client, hpos, hw, written]
      · intro rd2 h2
        have hpos2 : 0 < rd2.n := by omega
        simp [Fork.handle_client, hpos, hpos2]
  · intro ws st
    constructor
    · intro hn
      simp [Select.serve_client, hn, writeCount]
    · rintro ⟨h1, _⟩
      have hpos : ¬ (rd.n ≤ 0) := by omega
      have hw : written fd (Select.serve_client fd rd ws st).trace =
          written fd (Select.safe_write fd Select.resp.data Select.resp.length ws).trace := by
        by_cases hp : (Select.safe_write fd Select.resp.data Select.resp.length ws).status =
            WStatus.pending
        · simp [Select.serve_client, hpos, hp, written]
        · simp [Select.serve_client, hpos, hp, written, written_append]
      refine ⟨?_, ?_, ?_⟩
      · rw [hw, hsel, hsell]
      · rw [hw, ← hsel]
        exact safe_write_first fd Select.resp.data ws (by decide)
      · intro rd2 h2
        have hpos2 : ¬ (rd2.n ≤ 0) := by omega
        simp [Select.serve_client, hpos, hpos2]
  · intro epoll_fd e st hfd hrd
    subst hfd hrd
    constructor
    · intro hn
      simp [Epoll.serve_client, hn, writeCount]
    · rintro ⟨h1, _⟩
      have hpos : ¬ (e.rd.n ≤ 0) := by omega
      have hw : written e.fd (Epoll.serve_client epoll_fd e st).trace =
          written e.fd (Epoll.safe_write e.fd Epoll.resp.data Epoll.resp.length e.wr).trace := by
        by_cases hp : (Epoll.safe_write e.fd Epoll.resp.data Epoll.resp.length e.wr).status =
            WStatus.pending
        · simp [Epoll.serve_client, hpos, hp, written]
        · simp [Epoll.serve_client, hpos, hp, written, written_append]
      refine ⟨?_, ?_, ?_⟩
      · rw [hw, hep, hepl]
      · have heq : Epoll.safe_write = Select.safe_write := by
          funext a b c d
          exact epoll_safe_write_loop_eq a b c d 0
        rw [hw, ← hep, heq]
        exact safe_write_first e.fd Epoll.resp.data e.wr (by decide)
      · intro rd2 h2
        have hpos2 : ¬ (rd2.n ≤ 0) := by omega
        simp [Epoll.serve_client, hpos, hpos2]

/-- The select handler after a read of three bytes. -/
theorem C2_response_fixed_witness :
    (1 : Int) ≤ 3 ∧ (3 : Int) ≤ 4095 ∧
      (written 5 (Select.serve_client 5 ⟨3, 0, ['G', 'E', 'T']⟩ [⟨90, 0⟩]
        (Select.init 3 false)).trace).head? =
        some ("HTTP/1.1 200 OK\r\nContent-Type: text/plain\r\nConnection: close\r\n\r\n" ++
          "Hello from select server!" ++ "\n").data :=
  ⟨by decide, by decide,
    (((C2_response_fixed 5 ⟨3, 0, ['G', 'E', 'T']⟩).2.1 [⟨90, 0⟩] (Select.init 3 false)).2
      ⟨by decide, by decide⟩).2.1⟩

/-- C4 (the code at the failing input): with a `read` of three bytes,
`handle_client` of the fork server issues one `write` of the 88 response bytes
and then `close`, both when that `write` accepts only 10 bytes and when it fails
with `EINTR`; whatever the answers, it never issues more than one `write`. -/
theorem C4_fork_single_write :
    Fork.handle_client 5 ⟨3, 0, ['G', 'E', 'T']⟩ ⟨10, 0⟩ =
      [Event.read 5 4095, Event.write 5 Fork.resp.data, Event.close 5] ∧
    Fork.resp.length = 88 ∧
    Fork.handle_client 5 ⟨3, 0, ['G', 'E', 'T']⟩ ⟨-1, EINTR⟩ =
      [Event.read 5 4095, Event.write 5 Fork.resp.data, Event.perror "write", Event.close 5] ∧
    ∀ fd rd wr, writeCount (Fork.handle_client fd rd wr) ≤ 1 := by
  refine ⟨by rfl, by rfl, by rfl, ?_⟩
  intro fd rd wr
  by_cases hpos : 0 < rd.n <;> by_cases hw : wr.ret = -1 <;>
    simp [Fork.handle_client, hpos, hw, writeCount]

end WebServers

namespace WebServers

/-! The flag and the loop exit. -/

theorem select_accept_client_keep (s : Nat) (acc : SysRet) (st : Select.St) :
    (Select.accept_client s acc st).st.keep_running = st.keep_running := by
  simp only [Select.accept_client]
  split_ifs <;> rfl

theorem select_serve_client_keep (fd : Nat) (rd : ReadRet) (ws : List SysRet) (st : Select.St) :
    (Select.serve_client fd rd ws st).st.keep_running = st.keep_running := by
  simp only [Select.serve_client]
  split_ifs <;> rfl

theorem select_scan_loop_keep (s : Nat) (w : Select.Wake) (fuel fd : Nat) (ready : Int)
    (st : Select.St) :
    (Select.scan_loop s w fuel fd ready st).st.keep_running = st.keep_running := by
  induction fuel generalizing fd ready st with
  | zero => rfl
  | succ n ih =>
    rw [Select.scan_loop]
    split_ifs <;>
      simp [Run.after, ih, select_accept_client_keep, select_serve_client_keep]

theorem epoll_accept_client_keep (ep s : Nat) (e : Epoll.Ev) (st : Epoll.St) :
    (Epoll.accept_client ep s e st).st.keep_running = st.keep_running := by
  simp only [Epoll.accept_client]
  split_ifs <;> rfl

theorem epoll_serve_client_keep (ep : Nat) (e : Epoll.Ev) (st : Epoll.St) :
    (Epoll.serve_client ep e st).st.keep_running = st.keep_running := by
  simp only [Epoll.serve_client]
  split_ifs <;> rfl

theorem epoll_event_loop_keep (ep s : Nat) (evs : List Epoll.Ev) (st : Epoll.St) :
    (Epoll.event_loop ep s evs st).st.keep_running = st.keep_running := by
  induction evs generalizing st with
  | nil => rfl
  | cons e rest ih =>
    rw [Epoll.event_loop]
    split_ifs <;>
      simp [Run.after, ih, epoll_accept_client_keep, epoll_serve_client_keep]

/-- C9: in each server, when the blocking wait call of a pass (`accept`,
`select`, `epoll_wait`) fails with `EINTR` and the shutdown flag has been set,
the rest of the run consists of that call followed by the code behind the loop:
no wait call, `accept`, `read` or `write` is issued any more whatever the
environment still has to offer, and `main` returns 0. No pass ever changes a
flag that is 0. -/
theorem C9_shutdown_on_interrupt :
    (∀ server_fd (t : Fork.Turn) (rest : List Fork.Turn) (st : Fork.St),
      st.status = Status.running → st.keep_running ≠ 0 → t.signal = true →
      t.acc.ret < 0 → t.acc.errno = EINTR →
      Fork.serve_and_exit server_fd (t :: rest) st =
        { trace := [Event.accept server_fd, Event.printf "Shutting down server.",
            Event.close server_fd],
          st := { st with keep_running := 0, status := Status.returned 0 } }) ∧
    (∀ server_fd (w : Select.Wake) (rest : List Select.Wake) (st : Select.St),
      st.status = Status.running → st.keep_running ≠ 0 → w.signal = true →
      w.ready < 0 → w.errno = EINTR →
      (Select.serve_and_exit server_fd (w :: rest) st).trace =
        Event.select (st.maxfd + 1) :: (Select.cleanup_fds st).map Event.close ∧
      (Select.serve_and_exit server_fd (w :: rest) st).st.status = Status.returned 0 ∧
      (Select.serve_and_exit server_fd (w :: rest) st).st.keep_running = 0) ∧
    (∀ epoll_fd server_fd (w : Epoll.Wake) (rest : List Epoll.Wake) (st : Epoll.St),
      st.status = Status.running → st.keep_running ≠ 0 → w.signal = true →
      w.nready < 0 → w.errno = EINTR →
      (Epoll.serve_and_exit epoll_fd server_fd (w :: rest) st).trace =
        [Event.epoll_wait epoll_fd MAX_EVENTS, Event.printf "Shutting down server.",
          Event.close epoll_fd, Event.close server_fd] ∧
      (Epoll.serve_and_exit epoll_fd server_fd (w :: rest) st).st.status = Status.returned 0 ∧
      (Epoll.serve_and_exit epoll_fd server_fd (w :: rest) st).st.keep_running = 0) ∧
    (∀ server_fd (t : Fork.Turn) (st : Fork.St), st.keep_running = 0 →
      (Fork.pass server_fd t st).st.keep_running = 0) ∧
    (∀ server_fd (w : Select.Wake) (st : Select.St), st.keep_running = 0 →
      (Select.pass server_fd w st).st.keep_running = 0) ∧
    (∀ epoll_fd server_fd (w : Epoll.Wake) (st : Epoll.St), st.keep_running = 0 →
      (Epoll.pass epoll_fd server_fd w st).st.keep_running = 0) := by
  refine ⟨?_, ?_, ?_, ?_, ?_, ?_⟩
  · intro s t rest st hst hk hsig hret herr
    have hp : Fork.pass s t st =
        { trace := [Event.accept s], st := { st with keep_running := 0 } } := by
      simp [Fork.pass, Fork.sigint_handler, hsig, hret, herr]
    cases rest <;>
      simp [Fork.serve_and_exit, Fork.serve, hp, hk, hst, Run.after, Fork.finish, EXIT_SUCCESS]
  · intro s w rest st hst hk hsig hret herr
    have hp : Select.pass s w st =
        { trace := [Event.select (st.maxfd + 1)], st := { st with keep_running := 0 } } := by
      simp [Select.pass, Select.sigint_handler, hsig, hret, herr]
    cases rest <;>
      simp [Select.serve_and_exit, Select.serve, hp, hk, hst, Run.after, Select.finish,
        EXIT_SUCCESS, Select.cleanup_fds]
  · intro ep s w rest st hst hk hsig hret herr
    have hp : Epoll.pass ep s w st =
        { trace := [Event.epoll_wait ep MAX_EVENTS], st := { st with keep_running := 0 } } := by
      simp [Epoll.pass, Epoll.sigint_handler, hsig, hret, herr]
    cases rest <;>
      simp [Epoll.serve_and_exit, Epoll.serve, hp, hk, hst, Run.after, Epoll.finish,
        EXIT_SUCCESS]
  · intro s t st hk
    simp only [Fork.pass, Fork.sigint_handler]
    split_ifs <;> simp [hk]
  · intro s w st hk
    simp only [Select.pass, Select.sigint_handler]
    split_ifs <;> simp [hk, Run.after, Select.scan, select_scan_loop_keep]
  · intro ep s w st hk
    simp only [Epoll.pass, Epoll.sigint_handler]
    split_ifs <;> simp [hk, Run.after, epoll_event_loop_keep]

/-- The epoll server interrupted in `epoll_wait` with the flag set, while another
wake with a ready listener is still on offer. -/
theorem C9_shutdown_on_interrupt_witness :
    (Epoll.init 4 3 false).status = Status.running ∧ (Epoll.init 4 3 false).keep_running ≠ 0 ∧
      (Epoll.serve_and_exit 4 3
        [⟨true, -1, 4, []⟩, ⟨false, 1, 0, [⟨3, ⟨5, 0⟩, 0, ⟨0, 0, []⟩, []⟩]⟩]
        (Epoll.init 4 3 false)).trace =
        [Event.epoll_wait 4 MAX_EVENTS, Event.printf "Shutting down server.",
          Event.close 4, Event.close 3] :=
  ⟨rfl, by decide,
    (C9_shutdown_on_interrupt.2.2.1 4 3 ⟨true, -1, 4, []⟩
      [⟨false, 1, 0, [⟨3, ⟨5, 0⟩, 0, ⟨0, 0, []⟩, []⟩]⟩] (Epoll.init 4 3 false)
      rfl (by decide) rfl (by decide) rfl).1⟩

end WebServers

namespace WebServers

/-! Handling one ready descriptor. -/

theorem safe_write_loop_events (fd : Nat) (buf : List Char) (len : Nat) (script : List SysRet)
    (off : Nat) :
    ∀ e ∈ (Select.safe_write_loop fd buf len script off).trace,
      (∃ b, e = Event.write fd b) ∨ e = Event.perror "write" := by
  induction script generalizing off with
  | nil =>
    intro e he
    by_cases hlt : off < len <;> simp [Select.safe_write_loop, hlt] at he
    exact Or.inl ⟨_, he⟩
  | cons r rest ih =>
    intro e he
    by_cases hlt : off < len
    · by_cases hpos : 0 < r.ret
      · rw [loop_step_accept fd buf len r rest off hlt hpos] at he
        simp only [WriteRun.after, List.mem_cons] at he
        rcases he with h | h
        · exact Or.inl ⟨_, h⟩
        · exact ih _ e h
      · by_cases hi : r.ret = -1 ∧ r.errno = EINTR
        · rw [loop_step_eintr fd buf len r rest off hlt hi.1 hi.2] at he
          simp only [WriteRun.after, List.mem_cons] at he
          rcases he with h | h
          · exact Or.inl ⟨_, h⟩
          · exact ih _ e h
        · rw [loop_step_fail fd buf len r rest off hlt hpos hi] at he
          simp only [List.mem_cons, List.mem_singleton, List.not_mem_nil, or_false] at he
          rcases he with h | h
          · exact Or.inl ⟨_, h⟩
          · exact Or.inr h
    · simp [Select.safe_write_loop, hlt] at he

theorem safe_write_no_close (fd g : Nat) (buf : List Char) (len : Nat) (script : List SysRet) :
    (Select.safe_write fd buf len script).trace.count (Event.close g) = 0 := by
  rw [List.count_eq_zero]
  intro hmem
  rcases safe_write_loop_events fd buf len script 0 _ hmem with ⟨b, hb⟩ | hb <;> cases hb

theorem safe_write_no_del (fd ep g : Nat) (buf : List Char) (len : Nat) (script : List SysRet) :
    (Select.safe_write fd buf len script).trace.count (Event.epoll_ctl_del ep g) = 0 := by
  rw [List.count_eq_zero]
  intro hmem
  rcases safe_write_loop_events fd buf len script 0 _ hmem with ⟨b, hb⟩ | hb <;> cases hb

theorem epoll_safe_write_eq : Epoll.safe_write = Select.safe_write := by
  funext a b c d
  exact epoll_safe_write_loop_eq a b c d 0

theorem handled_append (xs ys : List Event) :
    handled (xs ++ ys) = handled xs ++ handled ys := by
  induction xs with
  | nil => rfl
  | cons e rest ih => cases e <;> simp [handled, ih]

theorem handled_write_loop (tr : List Event)
    (h : ∀ e ∈ tr, (∃ fd b, e = Event.write fd b) ∨ e = Event.perror "write") :
    handled tr = [] := by
  induction tr with
  | nil => rfl
  | cons e rest ih =>
    have hrest := ih (fun x hx => h x (List.mem_cons_of_mem _ hx))
    rcases h e (List.mem_cons_self _ _) with ⟨fd, b, hb⟩ | hb <;> subst hb <;>
      simpa [handled] using hrest

theorem handled_safe_write (fd : Nat) (buf : List Char) (len : Nat) (script : List SysRet) :
    handled (Select.safe_write fd buf len script).trace = [] := by
  apply handled_write_loop
  intro e he
  rcases safe_write_loop_events fd buf len script 0 e he with ⟨b, hb⟩ | hb
  · exact Or.inl ⟨fd, b, hb⟩
  · exact Or.inr hb

theorem handled_serve_client (fd : Nat) (rd : ReadRet) (ws : List SysRet) (st : Select.St) :
    handled (Select.serve_client fd rd ws st).trace = [fd] := by
  simp only [Select.serve_client]
  split_ifs <;> simp [handled, handled_append, handled_safe_write]

theorem handled_accept_client (s : Nat) (acc : SysRet) (st : Select.St) :
    handled (Select.accept_client s acc st).trace = [s] := by
  simp only [Select.accept_client]
  split_ifs <;> simp [handled]

theorem handled_scan_loop_ge (s : Nat) (w : Select.Wake) (fuel fd : Nat) (ready : Int)
    (st : Select.St) :
    ∀ x ∈ handled (Select.scan_loop s w fuel fd ready st).trace, fd ≤ x := by
  induction fuel generalizing fd ready st with
  | zero => intro x hx; simp [Select.scan_loop, handled] at hx
  | succ n ih =>
    intro x hx
    rw [Select.scan_loop] at hx
    split_ifs at hx with h1 h2 h3 h4 h5
    · simp only [Run.after, handled_append, handled_accept_client, List.mem_append,
        List.mem_singleton] at hx
      rcases hx with hx | hx
      · omega
      · have := ih _ _ _ x hx
        omega
    · simp only [handled_accept_client, List.mem_singleton] at hx
      omega
    · simp only [Run.after, handled_append, handled_serve_client, List.mem_append,
        List.mem_singleton] at hx
      rcases hx with hx | hx
      · omega
      · have := ih _ _ _ x hx
        omega
    · simp only [handled_serve_client, List.mem_singleton] at hx
      omega
    · have := ih _ _ _ x hx
      omega
    · simp [handled] at hx

/-- C6: in the select and epoll servers, handling a ready client descriptor `fd`
closes it exactly once and takes it off `master_set` (the epoll interest list),
for every result of the `read` and every way the write loop returns; the loops
hand every ready descriptor other than the listener to this handler, and the
rest of a select scan does not handle `fd` again. -/
theorem C6_close_once (fd : Nat) (rd : ReadRet) (ws : List SysRet) :
    (∀ st : Select.St,
      (0 < rd.n → (Select.safe_write fd Select.resp.data Select.resp.length ws).status ≠
        WStatus.pending) →
      (Select.serve_client fd rd ws st).trace.count (Event.close fd) = 1 ∧
      fd ∉ (Select.serve_client fd rd ws st).st.master_set ∧
      fd ∉ (Select.serve_client fd rd ws st).st.open_fds ∧
      (Select.serve_client fd rd ws st).st.status = st.status) ∧
    (∀ server_fd (w : Select.Wake) fuel ready (st : Select.St),
      fd ≠ server_fd → fd ∈ w.read_set → fd ≤ st.maxfd → ready ≠ 0 →
      st.status = Status.running → w.rd fd = rd → w.wr fd = ws →
      (0 < rd.n → (Select.safe_write fd Select.resp.data Select.resp.length ws).status ≠
        WStatus.pending) →
      Select.scan_loop server_fd w (fuel + 1) fd ready st =
        (Select.scan_loop server_fd w fuel (fd + 1) (ready - 1)
          (Select.serve_client fd rd ws st).st).after (Select.serve_client fd rd ws st).trace ∧
      ∀ st2, fd ∉ handled (Select.scan_loop server_fd w fuel (fd + 1) (ready - 1) st2).trace) ∧
    (∀ epoll_fd (e : Epoll.Ev) (st : Epoll.St), e.fd = fd → e.rd = rd → e.wr = ws →
      (0 < rd.n → (Epoll.safe_write fd Epoll.resp.data Epoll.resp.length ws).status ≠
        WStatus.pending) →
      (Epoll.serve_client epoll_fd e st).trace.count (Event.close fd) = 1 ∧
      (Epoll.serve_client epoll_fd e st).trace.count (Event.epoll_ctl_del epoll_fd fd) = 1 ∧
      fd ∉ (Epoll.serve_client epoll_fd e st).st.interest ∧
      fd ∉ (Epoll.serve_client epoll_fd e st).st.open_fds ∧
      (Epoll.serve_client epoll_fd e st).st.status = st.status) ∧
    (∀ epoll_fd server_fd (e : Epoll.Ev) (rest : List Epoll.Ev) (st : Epoll.St),
      e.fd = fd → e.rd = rd → e.wr = ws → fd ≠ server_fd → st.status = Status.running →
      (0 < rd.n → (Epoll.safe_write fd Epoll.resp.data Epoll.resp.length ws).status ≠
        WStatus.pending) →
      Epoll.event_loop epoll_fd server_fd (e :: rest) st =
        (Epoll.event_loop epoll_fd server_fd rest (Epoll.serve_client epoll_fd e st).st).after
          (Epoll.serve_client epoll_fd e st).trace) := by
  have hsel : ∀ st : Select.St,
      (0 < rd.n → (Select.safe_write fd Select.resp.data Select.resp.length ws).status ≠
        WStatus.pending) →
      (Select.serve_client fd rd ws st).trace.count (Event.close fd) = 1 ∧
      fd ∉ (Select.serve_client fd rd ws st).st.master_set ∧
      fd ∉ (Select.serve_client fd rd ws st).st.open_fds ∧
      (Select.serve_client fd rd ws st).st.status = st.status := by
    intro st hret
    by_cases hn : rd.n ≤ 0
    · simp [Select.serve_client, hn]
    · have hp := hret (by omega)
      simp [Select.serve_client, hn, hp, List.count_cons, List.count_append,
        safe_write_no_close]
  have hep : ∀ epoll_fd (e : Epoll.Ev) (st : Epoll.St), e.fd = fd → e.rd = rd → e.wr = ws →
      (0 < rd.n → (Epoll.safe_write fd Epoll.resp.data Epoll.resp.length ws).status ≠
        WStatus.pending) →
      (Epoll.serve_client epoll_fd e st).trace.count (Event.close fd) = 1 ∧
      (Epoll.serve_client epoll_fd e st).trace.count (Event.epoll_ctl_del epoll_fd fd) = 1 ∧
      fd ∉ (Epoll.serve_client epoll_fd e st).st.interest ∧
      fd ∉ (Epoll.serve_client epoll_fd e st).st.open_fds ∧
      (Epoll.serve_client epoll_fd e st).st.status = st.status := by
    intro ep e st hfd hrd hws hret
    subst hfd hrd hws
    by_cases hn : e.rd.n ≤ 0
    · simp [Epoll.serve_client, hn]
    · have hp := hret (by omega)
      rw [epoll_safe_write_eq] at hp
      simp [Epoll.serve_client, hn, hp, List.count_cons, List.count_append,
        epoll_safe_write_eq, safe_write_no_close, safe_write_no_del]
  refine ⟨hsel, ?_, hep, ?_⟩
  · intro s w fuel ready st hne hmem hle hr hst hrd hws hret
    have hstat := (hsel st hret).2.2.2
    constructor
    · rw [Select.scan_loop]
      simp [hle, hr, hmem, hne, hrd, hws, hstat, hst]
    · intro st2 hmem2
      have := handled_scan_loop_ge s w fuel (fd + 1) (ready - 1) st2 fd hmem2
      omega
  · intro ep s e rest st hfd hrd hws hne hst hret
    have hstat := (hep ep e st hfd hrd hws hret).2.2.2.2
    rw [Epoll.event_loop]
    simp [hfd, hne, hstat, hst]

/-- The select server handling descriptor 5 after a read of three bytes and a
complete write. -/
theorem C6_close_once_witness :
    ((0 : Int) < 3 → (Select.safe_write 5 Select.resp.data Select.resp.length [⟨90, 0⟩]).status ≠
        WStatus.pending) ∧
      (Select.serve_client 5 ⟨3, 0, []⟩ [⟨90, 0⟩] (Select.init 3 false)).trace.count
        (Event.close 5) = 1 :=
  ⟨by decide,
    ((C6_close_once 5 ⟨3, 0, []⟩ [⟨90, 0⟩]).1 (Select.init 3 false) (by decide)).1⟩

end WebServers

namespace WebServers

/-! A failing `accept`. -/

/-- C5 (as stated, refuted): in the fork server an `accept` that fails with
`errno` 24 (not `EINTR`) while the flag is 1 ends the serve loop: the turn that
follows is never used, the listener is closed and `main` returns 0. -/
theorem C5_fork_accept_failure_exits :
    (24 : Int) ≠ EINTR ∧
    (Fork.pass 3 ⟨false, ⟨-1, 24⟩, 1, ⟨0, 0, []⟩, ⟨0, 0⟩⟩ ⟨1, [], Status.running⟩).st.status =
      Status.left ∧
    Fork.serve_and_exit 3
        [⟨false, ⟨-1, 24⟩, 1, ⟨0, 0, []⟩, ⟨0, 0⟩⟩, ⟨false, ⟨4, 0⟩, 1, ⟨3, 0, []⟩, ⟨88, 0⟩⟩]
        ⟨1, [], Status.running⟩ =
      { trace := [Event.accept 3, Event.perror "accept", Event.printf "Shutting down server.",
          Event.close 3],
        st := ⟨1, [], Status.returned 0⟩ } := by
  refine ⟨by decide, by rfl, by rfl⟩

/-- C5 (amended): an `accept` that fails with an `errno` other than `EINTR` is
logged and services no connection. In the select and epoll servers it leaves
the state as it was (listener open and registered) and the scan goes on with
the next descriptor or event. In the fork server it ends the serve loop: the
listener is closed and `main` returns 0. -/
theorem C5_accept_failure (acc : SysRet) (hfail : acc.ret < 0) (herr : acc.errno ≠ EINTR) :
    (∀ server_fd (w : Select.Wake) fuel ready (st : Select.St),
      w.acc = acc → server_fd ∈ w.read_set → server_fd ≤ st.maxfd → ready ≠ 0 →
      st.status = Status.running →
      Select.accept_client server_fd acc st =
        { trace := [Event.accept server_fd, Event.perror "accept"], st := st } ∧
      Select.scan_loop server_fd w (fuel + 1) server_fd ready st =
        (Select.scan_loop server_fd w fuel (server_fd + 1) (ready - 1) st).after
          [Event.accept server_fd, Event.perror "accept"]) ∧
    (∀ epoll_fd server_fd (e : Epoll.Ev) (rest : List Epoll.Ev) (st : Epoll.St),
      e.fd = server_fd → e.acc = acc → st.status = Status.running →
      Epoll.accept_client epoll_fd server_fd e st =
        { trace := [Event.accept server_fd, Event.perror "accept"], st := st } ∧
      Epoll.event_loop epoll_fd server_fd (e :: rest) st =
        (Epoll.event_loop epoll_fd server_fd rest st).after
          [Event.accept server_fd, Event.perror "accept"]) ∧
    (∀ server_fd (t : Fork.Turn) (rest : List Fork.Turn) (st : Fork.St),
      t.acc = acc → st.status = Status.running → st.keep_running ≠ 0 →
      (Fork.serve_and_exit server_fd (t :: rest) st).trace =
        [Event.accept server_fd, Event.perror "accept",
          Event.printf "Shutting down server.", Event.close server_fd] ∧
      (Fork.serve_and_exit server_fd (t :: rest) st).st.status = Status.returned 0 ∧
      (Fork.serve_and_exit server_fd (t :: rest) st).st.children = st.children) := by
  refine ⟨?_, ?_, ?_⟩
  · intro s w fuel ready st hacc hmem hle hr hst
    have ha : Select.accept_client s acc st =
        { trace := [Event.accept s, Event.perror "accept"], st := st } := by
      simp [Select.accept_client, hfail]
    refine ⟨ha, ?_⟩
    rw [Select.scan_loop]
    simp [hle, hr, hmem, hacc, ha, hst]
  · intro ep s e rest st hfd hacc hst
    have ha : Epoll.accept_client ep s e st =
        { trace := [Event.accept s, Event.perror "accept"], st := st } := by
      simp [Epoll.accept_client, hacc, hfail]
    refine ⟨ha, ?_⟩
    rw [Epoll.event_loop]
    simp [hfd, ha, hst]
  · intro s t rest st hacc hst hk
    have hp : Fork.pass s t st =
        { trace := [Event.accept s, Event.perror "accept"],
          st := { (if t.signal then Fork.sigint_handler st else st) with
            status := Status.left } } := by
      simp [Fork.pass, hacc, hfail, herr]
    have hc : (if t.signal then Fork.sigint_handler st else st).children = st.children := by
      split_ifs <;> rfl
    simp [Fork.serve_and_exit, Fork.serve, hp, hk, Run.after, Fork.finish, EXIT_SUCCESS, hc]

/-- The epoll server meeting `accept` failing with `errno` 24 on its first event. -/
theorem C5_accept_failure_witness :
    (-1 : Int) < 0 ∧ (24 : Int) ≠ EINTR ∧
      Epoll.event_loop 4 3 [⟨3, ⟨-1, 24⟩, 0, ⟨0, 0, []⟩, []⟩] (Epoll.init 4 3 false) =
        (Epoll.event_loop 4 3 [] (Epoll.init 4 3 false)).after
          [Event.accept 3, Event.perror "accept"] :=
  ⟨by decide, by decide,
    (((C5_accept_failure ⟨-1, 24⟩ (by decide) (by decide)).2.1 4 3
      ⟨3, ⟨-1, 24⟩, 0, ⟨0, 0, []⟩, []⟩ [] (Epoll.init 4 3 false) rfl rfl rfl).2)⟩

end WebServers

namespace WebServers

/-! The descriptor sets of the select server. -/

theorem select_inv_init (s : Nat) (sig : Bool) : Select.Inv s (Select.init s sig) := by
  cases sig <;> simp [Select.Inv, Select.init, Select.fresh, Select.sigint_handler]

theorem select_inv_flag (s : Nat) (sig : Bool) (st : Select.St) (h : Select.Inv s st) :
    Select.Inv s (if sig then Select.sigint_handler st else st) := by
  cases sig
  · exact h
  · exact h

theorem select_inv_accept (s : Nat) (acc : SysRet) (st : Select.St) (h : Select.Inv s st)
    (hst : (Select.accept_client s acc st).st.status ≠ Status.undefined) :
    Select.Inv s (Select.accept_client s acc st).st := by
  obtain ⟨h1, h2, h3⟩ := h
  by_cases ha : acc.ret < 0
  · simpa [Select.accept_client, ha, Select.Inv] using ⟨h1, h2, h3⟩
  · by_cases hb : FD_SETSIZE ≤ acc.ret.toNat
    · simp [Select.accept_client, ha, hb] at hst
    · by_cases hgt : acc.ret.toNat > st.maxfd
      · simp only [Select.accept_client, ha, hb, hgt, if_true, if_false, Select.Inv]
        refine ⟨by rw [h1], ?_, Finset.mem_insert_of_mem h3⟩
        intro x hx
        rcases Finset.mem_insert.mp hx with hx | hx
        · omega
        · have := h2 x hx
          omega
      · simp only [Select.accept_client, ha, hb, hgt, if_false, Select.Inv]
        refine ⟨by rw [h1], ?_, Finset.mem_insert_of_mem h3⟩
        intro x hx
        rcases Finset.mem_insert.mp hx with hx | hx
        · omega
        · exact h2 x hx

theorem select_inv_serve_client (s fd : Nat) (rd : ReadRet) (ws : List SysRet) (st : Select.St)
    (hne : fd ≠ s) (h : Select.Inv s st) :
    Select.Inv s (Select.serve_client fd rd ws st).st := by
  obtain ⟨h1, h2, h3⟩ := h
  simp only [Select.serve_client]
  split_ifs
  · refine ⟨by simp [h1], ?_, ?_⟩
    · intro x hx
      exact h2 x (Finset.mem_of_mem_erase hx)
    · exact Finset.mem_erase.mpr ⟨fun hc => hne hc.symm, h3⟩
  · exact ⟨h1, h2, h3⟩
  · refine ⟨by simp [h1], ?_, ?_⟩
    · intro x hx
      exact h2 x (Finset.mem_of_mem_erase hx)
    · exact Finset.mem_erase.mpr ⟨fun hc => hne hc.symm, h3⟩

theorem select_inv_scan_loop (s : Nat) (w : Select.Wake) (fuel fd : Nat) (ready : Int)
    (st : Select.St) (h : Select.Inv s st)
    (hst : (Select.scan_loop s w fuel fd ready st).st.status ≠ Status.undefined) :
    Select.Inv s (Select.scan_loop s w fuel fd ready st).st := by
  induction fuel generalizing fd ready st with
  | zero => exact h
  | succ n ih =>
    rw [Select.scan_loop] at hst ⊢
    split_ifs at hst ⊢ with h1 h2 h3 h4 h5
    · simp only [Run.after] at hst ⊢
      exact ih _ _ _ (select_inv_accept s w.acc st h (by rw [h4]; simp)) hst
    · exact select_inv_accept s w.acc st h hst
    · simp only [Run.after] at hst ⊢
      exact ih _ _ _ (select_inv_serve_client s fd _ _ st h3 h) hst
    · exact select_inv_serve_client s fd _ _ st h3 h
    · exact ih _ _ _ h hst
    · exact h

theorem select_inv_pass (s : Nat) (w : Select.Wake) (st : Select.St) (h : Select.Inv s st)
    (hst : (Select.pass s w st).st.status ≠ Status.undefined) :
    Select.Inv s (Select.pass s w st).st := by
  have hflag := select_inv_flag s w.signal st h
  by_cases hr : w.ready < 0
  · by_cases he : w.errno = EINTR
    · simp only [Select.pass, hr, he, if_true]
      exact hflag
    · simp only [Select.pass, hr, he, if_true, if_false]
      exact hflag
  · simp only [Select.pass, hr, if_false, Run.after, Select.scan] at hst ⊢
    exact select_inv_scan_loop s w _ _ _ _ hflag hst

/-- The invariant holds in the state in which the serve loop ends. -/
theorem select_inv_serve (s : Nat) (wakes : List Select.Wake) (st : Select.St)
    (h : Select.Inv s st) (hst : (Select.serve s wakes st).st.status ≠ Status.undefined) :
    Select.Inv s (Select.serve s wakes st).st := by
  induction wakes generalizing st with
  | nil =>
    simp only [Select.serve]
    split_ifs <;> exact h
  | cons w rest ih =>
    rw [Select.serve] at hst ⊢
    split_ifs at hst ⊢ with h1 h2
    · simp only [Run.after] at hst ⊢
      exact ih _ (select_inv_pass s w st h (by rw [h2]; simp)) hst
    · exact select_inv_pass s w st h hst
    · exact h

/-- The select server at the head of every iteration reached from a state that
satisfies the invariant: `master_set` holds exactly the open descriptors. -/
theorem select_inv_at_head (s : Nat) (wakes : List Select.Wake) (st st2 : Select.St)
    (h : Select.Inv s st) (hat : Select.at_head s wakes st = some st2) :
    Select.Inv s st2 ∧ (st.status = Status.running → st2.status = Status.running) := by
  induction wakes generalizing st with
  | nil =>
    simp only [Select.at_head, Option.some.injEq] at hat
    subst hat
    exact ⟨h, id⟩
  | cons w rest ih =>
    rw [Select.at_head] at hat
    split_ifs at hat with h1
    have := ih _ (select_inv_pass s w st h (by rw [h1.2]; simp)) hat
    exact ⟨this.1, fun _ => this.2 h1.2⟩

/-- The loop behind the serve loop closes each member of `master_set` once and
nothing else. -/
theorem cleanup_count (st : Select.St) (hmax : ∀ x ∈ st.master_set, x ≤ st.maxfd) (fd : Nat) :
    ((Select.cleanup_fds st).map Event.close).count (Event.close fd) =
      if fd ∈ st.master_set then 1 else 0 := by
  have hinj : Function.Injective Event.close := by
    intro a b hab
    cases hab
    rfl
  rw [List.count_map_of_injective _ _ hinj]
  have hnd : (Select.cleanup_fds st).Nodup :=
    (List.nodup_range _).filter _
  by_cases hm : fd ∈ st.master_set
  · rw [if_pos hm]
    apply List.count_eq_one_of_mem hnd
    simp only [Select.cleanup_fds, List.mem_filter, List.mem_range, decide_eq_true_eq]
    exact ⟨Nat.lt_succ_of_le (hmax fd hm), hm⟩
  · rw [if_neg hm, List.count_eq_zero]
    simp [Select.cleanup_fds, hm]

theorem cleanup_mem (st : Select.St) (hmax : ∀ x ∈ st.master_set, x ≤ st.maxfd) (fd : Nat) :
    fd ∈ Select.cleanup_fds st ↔ fd ∈ st.master_set := by
  simp only [Select.cleanup_fds, List.mem_filter, List.mem_range, decide_eq_true_eq]
  constructor
  · exact fun h => h.2
  · exact fun h => ⟨Nat.lt_succ_of_le (hmax fd h), h⟩

/-! Where control can stand during the serve loop of the select server. -/

theorem select_accept_status_cases (s : Nat) (acc : SysRet) (st : Select.St) :
    (Select.accept_client s acc st).st.status = st.status ∨
      (Select.accept_client s acc st).st.status = Status.undefined := by
  simp only [Select.accept_client]
  split_ifs <;> simp

theorem select_serve_status_cases (fd : Nat) (rd : ReadRet) (ws : List SysRet)
    (st : Select.St) :
    (Select.serve_client fd rd ws st).st.status = st.status ∨
      (Select.serve_client fd rd ws st).st.status = Status.blocked := by
  simp only [Select.serve_client]
  split_ifs <;> simp

theorem select_scan_loop_not_returned (s : Nat) (w : Select.Wake) (c : Int) (fuel fd : Nat)
    (ready : Int) (st : Select.St) (h : st.status ≠ Status.returned c) :
    (Select.scan_loop s w fuel fd ready st).st.status ≠ Status.returned c := by
  induction fuel generalizing fd ready st with
  | zero => exact h
  | succ n ih =>
    rw [Select.scan_loop]
    split_ifs with h1 h2 h3 h4 h5
    · exact ih _ _ _ (by rw [h4]; simp)
    · rcases select_accept_status_cases s w.acc st with he | he <;> rw [he]
      · exact h
      · simp
    · exact ih _ _ _ (by rw [h5]; simp)
    · rcases select_serve_status_cases fd (w.rd fd) (w.wr fd) st with he | he <;> rw [he]
      · exact h
      · simp
    · exact ih _ _ _ h
    · exact h

theorem select_pass_not_returned (s : Nat) (w : Select.Wake) (c : Int) (st : Select.St)
    (h : st.status ≠ Status.returned c) :
    (Select.pass s w st).st.status ≠ Status.returned c := by
  have hflag : (if w.signal then Select.sigint_handler st else st).status ≠ Status.returned c := by
    split_ifs
    · exact h
    · exact h
  by_cases hr : w.ready < 0
  · by_cases he : w.errno = EINTR
    · simp only [Select.pass, hr, he, if_true]
      exact hflag
    · simp [Select.pass, hr, he]
  · simp only [Select.pass, hr, if_false, Run.after, Select.scan]
    exact select_scan_loop_not_returned s w c _ _ _ _ hflag

theorem select_serve_not_returned (s : Nat) (wakes : List Select.Wake) (c : Int)
    (st : Select.St) (h : st.status ≠ Status.returned c) :
    (Select.serve s wakes st).st.status ≠ Status.returned c := by
  induction wakes generalizing st with
  | nil =>
    simp only [Select.serve]
    split_ifs <;> simp
  | cons w rest ih =>
    rw [Select.serve]
    split_ifs with h1 h2
    · exact ih _ (by rw [h2]; simp)
    · exact select_pass_not_returned s w c st h
    · simp

/-- When `main` of the select server returns 0 it has been through the serve
loop, and the loop has been left. -/
theorem select_main_returned (arg : Option Int) (boot : Select.Boot)
    (wakes : List Select.Wake)
    (h : (Select.main arg boot wakes).st.status = Status.returned 0) :
    (Select.serve boot.socket.toNat wakes (Select.init boot.socket.toNat boot.signal)).st.status =
        Status.left ∧
      (Select.main arg boot wakes).st =
        (Select.finish (Select.serve boot.socket.toNat wakes
          (Select.init boot.socket.toNat boot.signal)).st).st := by
  have hstart : ∀ port, (Select.start port boot wakes).st.status = Status.returned 0 →
      (Select.serve boot.socket.toNat wakes
          (Select.init boot.socket.toNat boot.signal)).st.status = Status.left ∧
        (Select.start port boot wakes).st =
          (Select.finish (Select.serve boot.socket.toNat wakes
            (Select.init boot.socket.toNat boot.signal)).st).st := by
    intro port hs
    by_cases h2 : boot.socket < 0
    · simp [Select.start, h2, Select.halted] at hs
    by_cases h3 : boot.setsockopt < 0
    · simp [Select.start, h2, h3, Select.halted] at hs
    by_cases h4 : boot.bind < 0
    · simp [Select.start, h2, h3, h4, Select.halted] at hs
    by_cases h5 : boot.listen < 0
    · simp [Select.start, h2, h3, h4, h5, Select.halted] at hs
    by_cases h6 : FD_SETSIZE ≤ boot.socket.toNat
    · simp [Select.start, h2, h3, h4, h5, h6, Select.halted] at hs
    have hinit : (Select.init boot.socket.toNat boot.signal).status ≠ Status.returned 0 := by
      cases boot.signal <;> simp [Select.init, Select.fresh, Select.sigint_handler]
    have hnot := select_serve_not_returned boot.socket.toNat wakes 0 _ hinit
    by_cases hl : (Select.serve boot.socket.toNat wakes
        (Select.init boot.socket.toNat boot.signal)).st.status = Status.left
    · refine ⟨hl, ?_⟩
      simp [Select.start, h2, h3, h4, h5, h6, Select.serve_and_exit, hl, Run.after]
    · simp [Select.start, h2, h3, h4, h5, h6, Select.serve_and_exit, hl, Run.after] at hs
      exact absurd hs hnot
  cases arg with
  | none => exact hstart _ h
  | some p =>
    by_cases hp : p ≤ 0 ∨ p > 65535
    · simp [Select.main, hp, Select.halted, EXIT_FAILURE] at h
    · simp only [Select.main, hp, if_false] at h ⊢
      exact hstart p h

/-- C7 (the code at the failing input): the epoll server with listener 3 and
epoll instance 4 accepts descriptor 5 and `epoll_ctl(EPOLL_CTL_ADD)` fails for
it. At the head of the next iteration descriptor 5 is open, has not been
serviced and is not on the interest list; the program never closes it. -/
theorem C7_epoll_unregistered_connection :
    (∃ s, Epoll.at_head 4 3 [⟨false, 1, 0, [⟨3, ⟨5, 0⟩, -1, ⟨0, 0, []⟩, []⟩]⟩]
        (Epoll.init 4 3 false) = some s ∧
      s.status = Status.running ∧ 5 ∈ s.open_fds ∧ 5 ∉ s.interest) ∧
    (Epoll.pass 4 3 ⟨false, 1, 0, [⟨3, ⟨5, 0⟩, -1, ⟨0, 0, []⟩, []⟩]⟩
      (Epoll.init 4 3 false)).trace =
      [Event.epoll_wait 4 1024, Event.accept 3, Event.epoll_ctl_add 4 5] ∧
    (Epoll.main none ⟨3, 0, 0, 0, 4, 0, false⟩
      [⟨false, 1, 0, [⟨3, ⟨5, 0⟩, -1, ⟨0, 0, []⟩, []⟩]⟩, ⟨true, -1, 4, []⟩]).st.status =
      Status.returned 0 ∧
    (Epoll.main none ⟨3, 0, 0, 0, 4, 0, false⟩
      [⟨false, 1, 0, [⟨3, ⟨5, 0⟩, -1, ⟨0, 0, []⟩, []⟩]⟩, ⟨true, -1, 4, []⟩]).trace.count
      (Event.close 5) = 0 := by
  refine ⟨⟨_, rfl, ?_, ?_, ?_⟩, ?_, ?_, ?_⟩ <;> decide

/-- C8 (as stated, refuted): the epoll server with listener 3 and epoll
instance 4 accepts and registers descriptor 5, then `epoll_wait` is interrupted
with the flag set. The loop exits with 5 on the interest list, `main` returns 0,
and descriptor 5 has not been closed. -/
theorem C8_epoll_leaves_connection_open :
    (Epoll.serve 4 3 [⟨false, 1, 0, [⟨3, ⟨5, 0⟩, 0, ⟨0, 0, []⟩, []⟩]⟩, ⟨true, -1, 4, []⟩]
      (Epoll.init 4 3 false)).st.status = Status.left ∧
    5 ∈ (Epoll.serve 4 3 [⟨false, 1, 0, [⟨3, ⟨5, 0⟩, 0, ⟨0, 0, []⟩, []⟩]⟩, ⟨true, -1, 4, []⟩]
      (Epoll.init 4 3 false)).st.interest ∧
    (Epoll.main none ⟨3, 0, 0, 0, 4, 0, false⟩
      [⟨false, 1, 0, [⟨3, ⟨5, 0⟩, 0, ⟨0, 0, []⟩, []⟩]⟩, ⟨true, -1, 4, []⟩]).st.status =
      Status.returned 0 ∧
    5 ∈ (Epoll.main none ⟨3, 0, 0, 0, 4, 0, false⟩
      [⟨false, 1, 0, [⟨3, ⟨5, 0⟩, 0, ⟨0, 0, []⟩, []⟩]⟩, ⟨true, -1, 4, []⟩]).st.open_fds ∧
    (Epoll.main none ⟨3, 0, 0, 0, 4, 0, false⟩
      [⟨false, 1, 0, [⟨3, ⟨5, 0⟩, 0, ⟨0, 0, []⟩, []⟩]⟩, ⟨true, -1, 4, []⟩]).trace.count
      (Event.close 5) = 0 := by
  refine ⟨?_, ?_, ?_, ?_, ?_⟩ <;> decide

/-- C8 (amended): when the serve loop of the select server exits, the code
behind it closes the listener and every connection still in `master_set`, each
exactly once and nothing else, after which the process holds no descriptor
open and `main` returns 0; whenever `main` of the select server returns 0, no
descriptor is open. The code behind the loop of the epoll server closes
the epoll instance and the listener exactly once each and no other descriptor:
connections still open stay open until the process ends. -/
theorem C8_cleanup_at_exit :
    (∀ server_fd sig (wakes : List Select.Wake),
      (Select.serve server_fd wakes (Select.init server_fd sig)).st.status = Status.left →
      (∀ fd, (Select.finish (Select.serve server_fd wakes (Select.init server_fd sig)).st).trace.count
          (Event.close fd) =
        if fd ∈ (Select.serve server_fd wakes (Select.init server_fd sig)).st.master_set
          then 1 else 0) ∧
      server_fd ∈ (Select.serve server_fd wakes (Select.init server_fd sig)).st.master_set ∧
      (Select.serve server_fd wakes (Select.init server_fd sig)).st.open_fds =
        (Select.serve server_fd wakes (Select.init server_fd sig)).st.master_set ∧
      (Select.finish (Select.serve server_fd wakes (Select.init server_fd sig)).st).st.open_fds =
        ∅ ∧
      Select.serve_and_exit server_fd wakes (Select.init server_fd sig) =
        (Select.finish (Select.serve server_fd wakes (Select.init server_fd sig)).st).after
          (Select.serve server_fd wakes (Select.init server_fd sig)).trace ∧
      (Select.serve_and_exit server_fd wakes (Select.init server_fd sig)).st.status =
        Status.returned 0) ∧
    (∀ arg boot (wakes : List Select.Wake),
      (Select.main arg boot wakes).st.status = Status.returned 0 →
      (Select.main arg boot wakes).st.open_fds = ∅) ∧
    (∀ epoll_fd server_fd (st : Epoll.St), epoll_fd ≠ server_fd →
      (Epoll.finish epoll_fd server_fd st).trace.count (Event.close epoll_fd) = 1 ∧
      (Epoll.finish epoll_fd server_fd st).trace.count (Event.close server_fd) = 1 ∧
      (Epoll.finish epoll_fd server_fd st).st.status = Status.returned 0 ∧
      ∀ fd, fd ≠ epoll_fd → fd ≠ server_fd →
        (Epoll.finish epoll_fd server_fd st).trace.count (Event.close fd) = 0 ∧
        (fd ∈ st.open_fds → fd ∈ (Epoll.finish epoll_fd server_fd st).st.open_fds)) := by
  have hclean : ∀ s sig (wakes : List Select.Wake),
      (Select.serve s wakes (Select.init s sig)).st.status = Status.left →
      (Select.finish (Select.serve s wakes (Select.init s sig)).st).st.open_fds = ∅ := by
    intro s sig wakes hleft
    obtain ⟨h1, h2, _⟩ := select_inv_serve s wakes (Select.init s sig) (select_inv_init s sig)
      (by rw [hleft]; simp)
    simp only [Select.finish]
    apply Finset.filter_eq_empty_iff.mpr
    intro x hx
    rw [← h1] at hx
    simpa using (cleanup_mem _ h2 x).mpr hx
  refine ⟨?_, ?_, ?_⟩
  · intro s sig wakes hleft
    obtain ⟨h1, h2, h3⟩ := select_inv_serve s wakes (Select.init s sig) (select_inv_init s sig)
      (by rw [hleft]; simp)
    refine ⟨?_, h3, h1.symm, hclean s sig wakes hleft, ?_, ?_⟩
    · intro fd
      exact cleanup_count _ h2 fd
    · simp [Select.serve_and_exit, hleft]
    · simp [Select.serve_and_exit, hleft, Run.after, Select.finish, EXIT_SUCCESS]
  · intro arg boot wakes hret
    obtain ⟨hleft, hst⟩ := select_main_returned arg boot wakes hret
    rw [hst]
    exact hclean _ _ wakes hleft
  · intro ep s st hne
    have hne2 : s ≠ ep := fun h => hne h.symm
    refine ⟨?_, ?_, ?_, ?_⟩
    · simp [Epoll.finish, List.count_cons, hne2]
    · simp [Epoll.finish, List.count_cons, hne]
    · simp [Epoll.finish, EXIT_SUCCESS]
    · intro fd h1 h2
      refine ⟨?_, ?_⟩
      · simp [Epoll.finish, List.count_cons, Ne.symm h1, Ne.symm h2]
      · intro hmem
        simp [Epoll.finish, h1, h2, hmem]

/-- The select server shut down by an interrupted `select` after it registered
descriptor 5: the code behind the loop closes 5 exactly once. -/
theorem C8_cleanup_at_exit_witness :
    (Select.serve 3 [⟨false, 1, 0, {3}, ⟨5, 0⟩, fun _ => ⟨0, 0, []⟩, fun _ => []⟩,
        ⟨true, -1, 4, ∅, ⟨0, 0⟩, fun _ => ⟨0, 0, []⟩, fun _ => []⟩]
      (Select.init 3 false)).st.status = Status.left ∧
    (Select.finish (Select.serve 3 [⟨false, 1, 0, {3}, ⟨5, 0⟩, fun _ => ⟨0, 0, []⟩, fun _ => []⟩,
        ⟨true, -1, 4, ∅, ⟨0, 0⟩, fun _ => ⟨0, 0, []⟩, fun _ => []⟩]
      (Select.init 3 false)).st).trace.count (Event.close 5) =
      if 5 ∈ (Select.serve 3 [⟨false, 1, 0, {3}, ⟨5, 0⟩, fun _ => ⟨0, 0, []⟩, fun _ => []⟩,
        ⟨true, -1, 4, ∅, ⟨0, 0⟩, fun _ => ⟨0, 0, []⟩, fun _ => []⟩]
      (Select.init 3 false)).st.master_set then 1 else 0 :=
  ⟨by decide,
    ((C8_cleanup_at_exit.1 3 false
      [⟨false, 1, 0, {3}, ⟨5, 0⟩, fun _ => ⟨0, 0, []⟩, fun _ => []⟩,
        ⟨true, -1, 4, ∅, ⟨0, 0⟩, fun _ => ⟨0, 0, []⟩, fun _ => []⟩] (by decide)).1 5)⟩

end WebServers

namespace WebServers

/-! The scan of the select server. -/

theorem card_filter_ge_step (s : Finset Nat) (fd : Nat) :
    (s.filter fun x => fd ≤ x).card =
      (s.filter fun x => fd + 1 ≤ x).card + (if fd ∈ s then 1 else 0) := by
  by_cases hm : fd ∈ s
  · have hset : (s.filter fun x => fd ≤ x) = insert fd (s.filter fun x => fd + 1 ≤ x) := by
      ext x
      simp only [Finset.mem_filter, Finset.mem_insert]
      constructor
      · rintro ⟨hx, hle⟩
        by_cases he : x = fd
        · exact Or.inl he
        · exact Or.inr ⟨hx, by omega⟩
      · rintro (he | ⟨hx, hle⟩)
        · subst he
          exact ⟨hm, le_refl _⟩
        · exact ⟨hx, by omega⟩
    have hnot : fd ∉ (s.filter fun x => fd + 1 ≤ x) := by
      simp
    rw [hset, Finset.card_insert_of_not_mem hnot, if_pos hm]
  · have hset : (s.filter fun x => fd ≤ x) = (s.filter fun x => fd + 1 ≤ x) := by
      ext x
      simp only [Finset.mem_filter]
      constructor
      · rintro ⟨hx, hle⟩
        refine ⟨hx, ?_⟩
        by_contra hc
        have : x = fd := by omega
        subst this
        exact hm hx
      · rintro ⟨hx, hle⟩
        exact ⟨hx, by omega⟩
    simp [hset, hm]

theorem filter_range'_nil (s : Finset Nat) (fd n : Nat)
    (h : (s.filter fun x => fd ≤ x).card = 0) :
    (List.range' fd n).filter (fun x => decide (x ∈ s)) = [] := by
  rw [List.filter_eq_nil_iff]
  intro x hx
  have hx' := (List.mem_range'_1.mp hx).1
  have hempty := Finset.card_eq_zero.mp h
  intro hc
  have hmem : x ∈ (s.filter fun y => fd ≤ y) := by
    simp only [Finset.mem_filter]
    exact ⟨by simpa using hc, hx'⟩
  rw [hempty] at hmem
  exact absurd hmem (Finset.not_mem_empty _)

theorem select_accept_maxfd (s : Nat) (acc : SysRet) (st : Select.St) :
    st.maxfd ≤ (Select.accept_client s acc st).st.maxfd := by
  simp only [Select.accept_client]
  split_ifs <;> simp
  omega

theorem select_serve_maxfd (fd : Nat) (rd : ReadRet) (ws : List SysRet) (st : Select.St) :
    (Select.serve_client fd rd ws st).st.maxfd = st.maxfd := by
  simp only [Select.serve_client]
  split_ifs <;> rfl

theorem select_accept_status (s : Nat) (acc : SysRet) (st : Select.St)
    (h : 0 ≤ acc.ret → acc.ret.toNat < FD_SETSIZE) :
    (Select.accept_client s acc st).st.status = st.status := by
  by_cases ha : acc.ret < 0
  · simp [Select.accept_client, ha]
  · have hb : ¬ FD_SETSIZE ≤ acc.ret.toNat := by
      have := h (by omega)
      omega
    simp [Select.accept_client, ha, hb]

theorem select_serve_status (fd : Nat) (rd : ReadRet) (ws : List SysRet) (st : Select.St)
    (h : 0 < rd.n →
      (Select.safe_write fd Select.resp.data Select.resp.length ws).status ≠ WStatus.pending) :
    (Select.serve_client fd rd ws st).st.status = st.status := by
  by_cases hn : rd.n ≤ 0
  · simp [Select.serve_client, hn]
  · have hp := h (by omega)
    simp [Select.serve_client, hn, hp]

/-- The scan from `fd` on handles the members of `read_set` from `fd` on, in
ascending order, and runs to its end. -/
theorem scan_loop_handled (s : Nat) (w : Select.Wake) (K : Nat)
    (hK : ∀ x ∈ w.read_set, x ≤ K)
    (hwr : ∀ fd ∈ w.read_set, fd ≠ s → 0 < (w.rd fd).n →
      (Select.safe_write fd Select.resp.data Select.resp.length (w.wr fd)).status ≠
        WStatus.pending)
    (hacc : s ∈ w.read_set → 0 ≤ w.acc.ret → w.acc.ret.toNat < FD_SETSIZE)
    (fuel fd : Nat) (ready : Int) (st : Select.St)
    (hst : st.status = Status.running)
    (hready : ready = ((w.read_set.filter fun x => fd ≤ x).card : Int))
    (hmax : K ≤ st.maxfd) (hfuel : K + 1 ≤ fuel + fd) :
    handled (Select.scan_loop s w fuel fd ready st).trace =
        (List.range' fd (K + 1 - fd)).filter (fun x => decide (x ∈ w.read_set)) ∧
      (Select.scan_loop s w fuel fd ready st).st.status = Status.running := by
  induction fuel generalizing fd ready st with
  | zero =>
    have h0 : K + 1 - fd = 0 := by omega
    simp [Select.scan_loop, handled, h0, hst]
  | succ n ih =>
    rw [Select.scan_loop]
    have hstep := card_filter_ge_step w.read_set fd
    by_cases hcond : fd ≤ st.maxfd ∧ ready ≠ 0
    · rw [if_pos hcond]
      have hfdK : fd ≤ K := by
        by_contra hc
        apply hcond.2
        rw [hready]
        have : (w.read_set.filter fun x => fd ≤ x) = ∅ := by
          apply Finset.filter_eq_empty_iff.mpr
          intro x hx
          have := hK x hx
          omega
        rw [this]
        rfl
      have hrange : List.range' fd (K + 1 - fd) =
          fd :: List.range' (fd + 1) (K + 1 - (fd + 1)) := by
        have : K + 1 - fd = (K + 1 - (fd + 1)) + 1 := by omega
        rw [this]
        rfl
      by_cases hm : fd ∈ w.read_set
      · rw [if_pos hm]
        rw [if_pos hm, ] at hstep
        have hready' : ready - 1 = ((w.read_set.filter fun x => fd + 1 ≤ x).card : Int) := by
          rw [hready, hstep]
          push_cast
          ring
        rw [hrange, List.filter_cons_of_pos (by simpa using hm)]
        by_cases hs : fd = s
        · rw [if_pos hs]
          have hstat : (Select.accept_client s w.acc st).st.status = Status.running := by
            rw [select_accept_status s w.acc st (hacc (hs ▸ hm)), hst]
          rw [if_pos hstat]
          have hmax' := select_accept_maxfd s w.acc st
          obtain ⟨i1, i2⟩ := ih (fd + 1) (ready - 1) _ hstat hready' (by omega) (by omega)
          refine ⟨?_, i2⟩
          simp only [Run.after, handled_append, handled_accept_client, i1]
          rw [hs]
          rfl
        · rw [if_neg hs]
          have hstat : (Select.serve_client fd (w.rd fd) (w.wr fd) st).st.status =
              Status.running := by
            rw [select_serve_status fd _ _ st (hwr fd hm hs), hst]
          rw [if_pos hstat]
          have hmax' := select_serve_maxfd fd (w.rd fd) (w.wr fd) st
          obtain ⟨i1, i2⟩ := ih (fd + 1) (ready - 1) _ hstat hready' (by omega) (by omega)
          refine ⟨?_, i2⟩
          simp only [Run.after, handled_append, handled_serve_client, i1]
          rfl
      · rw [if_neg hm]
        rw [if_neg hm, Nat.add_zero] at hstep
        rw [hrange, List.filter_cons_of_neg (by simpa using hm)]
        exact ih (fd + 1) ready st hst (by rw [hready, hstep]) hmax (by omega)
    · rw [if_neg hcond]
      refine ⟨?_, hst⟩
      simp only [handled]
      by_cases hle : fd ≤ st.maxfd
      · have hr0 : ready = 0 := by
          by_contra hc
          exact hcond ⟨hle, hc⟩
        rw [hr0] at hready
        exact (filter_range'_nil w.read_set fd _ (by exact_mod_cast hready.symm)).symm
      · have h0 : K + 1 - fd = 0 := by omega
        simp [h0]

theorem select_accept_keeps (s : Nat) (acc : SysRet) (st : Select.St) (c : Nat)
    (h : c ∈ st.master_set ∧ c ∈ st.open_fds) :
    c ∈ (Select.accept_client s acc st).st.master_set ∧
      c ∈ (Select.accept_client s acc st).st.open_fds := by
  simp only [Select.accept_client]
  split_ifs <;> simp [h.1, h.2]

theorem select_accept_adds (s : Nat) (acc : SysRet) (st : Select.St)
    (h0 : 0 ≤ acc.ret) (hlt : acc.ret.toNat < FD_SETSIZE) :
    acc.ret.toNat ∈ (Select.accept_client s acc st).st.master_set ∧
      acc.ret.toNat ∈ (Select.accept_client s acc st).st.open_fds := by
  have ha : ¬ acc.ret < 0 := by omega
  have hb : ¬ FD_SETSIZE ≤ acc.ret.toNat := by omega
  simp [Select.accept_client, ha, hb]

theorem select_serve_keeps (fd : Nat) (rd : ReadRet) (ws : List SysRet) (st : Select.St)
    (c : Nat) (hne : c ≠ fd) (h : c ∈ st.master_set ∧ c ∈ st.open_fds) :
    c ∈ (Select.serve_client fd rd ws st).st.master_set ∧
      c ∈ (Select.serve_client fd rd ws st).st.open_fds := by
  simp only [Select.serve_client]
  split_ifs <;> simp [h.1, h.2, hne]

/-- The scan from `fd` on leaves a descriptor registered and open when it is
not a ready descriptor at or behind `fd`. -/
theorem scan_loop_keeps (s : Nat) (w : Select.Wake) (c : Nat) (fuel fd : Nat) (ready : Int)
    (st : Select.St) (h : c ∈ st.master_set ∧ c ∈ st.open_fds)
    (hc : c ∉ w.read_set ∨ c < fd) :
    c ∈ (Select.scan_loop s w fuel fd ready st).st.master_set ∧
      c ∈ (Select.scan_loop s w fuel fd ready st).st.open_fds := by
  induction fuel generalizing fd ready st with
  | zero => exact h
  | succ n ih =>
    rw [Select.scan_loop]
    split_ifs with h1 h2 h3 h4 h5
    · exact ih _ _ _ (select_accept_keeps s w.acc st c h) (hc.imp_right fun hh => by omega)
    · exact select_accept_keeps s w.acc st c h
    · have hne : c ≠ fd := by
        rcases hc with hc | hc
        · intro he
          exact hc (he ▸ h2)
        · omega
      exact ih _ _ _ (select_serve_keeps fd _ _ st c hne h) (hc.imp_right fun hh => by omega)
    · have hne : c ≠ fd := by
        rcases hc with hc | hc
        · intro he
          exact hc (he ▸ h2)
        · omega
      exact select_serve_keeps fd _ _ st c hne h
    · exact ih _ _ _ h (hc.imp_right fun hh => by omega)
    · exact h

/-- A scan that gets to the listener leaves the accepted descriptor registered
and open at its end. -/
theorem scan_loop_accepted (s : Nat) (w : Select.Wake) (K : Nat)
    (hK : ∀ x ∈ w.read_set, x ≤ K)
    (hwr : ∀ fd ∈ w.read_set, fd ≠ s → 0 < (w.rd fd).n →
      (Select.safe_write fd Select.resp.data Select.resp.length (w.wr fd)).status ≠
        WStatus.pending)
    (hs : s ∈ w.read_set) (h0 : 0 ≤ w.acc.ret) (hlt : w.acc.ret.toNat < FD_SETSIZE)
    (hc : w.acc.ret.toNat ∉ w.read_set ∨ w.acc.ret.toNat < s)
    (fuel fd : Nat) (ready : Int) (st : Select.St)
    (hst : st.status = Status.running)
    (hready : ready = ((w.read_set.filter fun x => fd ≤ x).card : Int))
    (hmax : K ≤ st.maxfd) (hfuel : K + 1 ≤ fuel + fd) (hfd : fd ≤ s) :
    w.acc.ret.toNat ∈ (Select.scan_loop s w fuel fd ready st).st.master_set ∧
      w.acc.ret.toNat ∈ (Select.scan_loop s w fuel fd ready st).st.open_fds := by
  have hsK := hK s hs
  induction fuel generalizing fd ready st with
  | zero => omega
  | succ n ih =>
    rw [Select.scan_loop]
    have hstep := card_filter_ge_step w.read_set fd
    have hpos : 0 < (w.read_set.filter fun x => fd ≤ x).card := by
      apply Finset.card_pos.mpr
      exact ⟨s, by simp [hs, hfd]⟩
    have hcond : fd ≤ st.maxfd ∧ ready ≠ 0 := by
      refine ⟨by omega, ?_⟩
      rw [hready]
      exact_mod_cast Nat.pos_iff_ne_zero.mp hpos
    rw [if_pos hcond]
    by_cases hm : fd ∈ w.read_set
    · rw [if_pos hm]
      rw [if_pos hm] at hstep
      have hready' : ready - 1 = ((w.read_set.filter fun x => fd + 1 ≤ x).card : Int) := by
        rw [hready, hstep]
        push_cast
        ring
      by_cases he : fd = s
      · rw [if_pos he]
        have hstat : (Select.accept_client s w.acc st).st.status = Status.running := by
          rw [select_accept_status s w.acc st (fun _ => hlt), hst]
        rw [if_pos hstat]
        simp only [Run.after]
        exact scan_loop_keeps s w _ n (fd + 1) (ready - 1) _
          (select_accept_adds s w.acc st h0 hlt) (hc.imp_right fun hh => by omega)
      · rw [if_neg he]
        have hstat : (Select.serve_client fd (w.rd fd) (w.wr fd) st).st.status =
            Status.running := by
          rw [select_serve_status fd _ _ st (hwr fd hm he), hst]
        rw [if_pos hstat]
        have hmax' := select_serve_maxfd fd (w.rd fd) (w.wr fd) st
        simp only [Run.after]
        exact ih (fd + 1) (ready - 1) _ hstat hready' (by omega) (by omega) (by omega)
    · rw [if_neg hm]
      rw [if_neg hm, Nat.add_zero] at hstep
      have hne : fd ≠ s := fun he => hm (he ▸ hs)
      exact ih (fd + 1) ready st hst (by rw [hready, hstep]) hmax (by omega) (by omega)

/-- C10: a wake of the select server in which `select` returns the number of
descriptors set in `read_set`, all of them in `[0, maxfd]` and open, every
write loop returns and `accept` returns a descriptor that is not open when it
is called. The scan handles the descriptors set in `read_set` in ascending
order, each exactly once and no other descriptor; it runs to its end; and the
connection accepted during the scan is not handled behind the listener: at the
end of the scan it is still registered and open. -/
theorem C10_scan_order (server_fd : Nat) (w : Select.Wake) (st : Select.St)
    (hst : st.status = Status.running)
    (hready : w.ready = (w.read_set.card : Int))
    (hrange : ∀ fd ∈ w.read_set, fd ≤ st.maxfd)
    (hopen : ∀ fd ∈ w.read_set, fd ∈ st.open_fds)
    (hwr : ∀ fd ∈ w.read_set, fd ≠ server_fd → 0 < (w.rd fd).n →
      (Select.safe_write fd Select.resp.data Select.resp.length (w.wr fd)).status ≠
        WStatus.pending)
    (hacc : 0 ≤ w.acc.ret → w.acc.ret.toNat < FD_SETSIZE)
    (hfresh : 0 ≤ w.acc.ret → w.acc.ret.toNat ∉ st.open_fds ∨
      (w.acc.ret.toNat ∈ w.read_set ∧ w.acc.ret.toNat < server_fd)) :
    handled (Select.scan server_fd w st).trace =
        (List.range (st.maxfd + 1)).filter (fun fd => decide (fd ∈ w.read_set)) ∧
      (handled (Select.scan server_fd w st).trace).Pairwise (fun a b => a < b) ∧
      (∀ fd, (handled (Select.scan server_fd w st).trace).count fd =
        if fd ∈ w.read_set then 1 else 0) ∧
      (Select.scan server_fd w st).st.status = Status.running ∧
      (server_fd ∈ w.read_set → 0 ≤ w.acc.ret →
        (∀ x ∈ handled (Select.scan server_fd w st).trace,
          server_fd < x → x ≠ w.acc.ret.toNat) ∧
        w.acc.ret.toNat ∈ (Select.scan server_fd w st).st.master_set ∧
        w.acc.ret.toNat ∈ (Select.scan server_fd w st).st.open_fds) := by
  have hcard : w.ready = ((w.read_set.filter fun x => 0 ≤ x).card : Int) := by
    rw [hready]
    simp
  obtain ⟨h1, h2⟩ := scan_loop_handled server_fd w st.maxfd hrange hwr (fun _ => hacc)
    (max st.maxfd w.acc.ret.toNat + 2) 0 w.ready st hst hcard (le_refl _) (by omega)
  have heq : handled (Select.scan server_fd w st).trace =
      (List.range (st.maxfd + 1)).filter (fun fd => decide (fd ∈ w.read_set)) := by
    rw [List.range_eq_range']
    exact h1
  have hnd : ((List.range (st.maxfd + 1)).filter (fun fd => decide (fd ∈ w.read_set))).Nodup :=
    (List.nodup_range _).filter _
  have hmem : ∀ fd, fd ∈ (List.range (st.maxfd + 1)).filter (fun fd => decide (fd ∈ w.read_set)) ↔
      fd ∈ w.read_set := by
    intro fd
    simp only [List.mem_filter, List.mem_range, decide_eq_true_eq]
    constructor
    · exact fun h => h.2
    · exact fun h => ⟨Nat.lt_succ_of_le (hrange fd h), h⟩
  refine ⟨heq, ?_, ?_, h2, ?_⟩
  · rw [heq]
    exact (List.pairwise_lt_range _).filter _
  · intro fd
    rw [heq]
    by_cases hm : fd ∈ w.read_set
    · rw [if_pos hm]
      exact List.count_eq_one_of_mem hnd ((hmem fd).mpr hm)
    · rw [if_neg hm, List.count_eq_zero]
      exact fun hc => hm ((hmem fd).mp hc)
  · intro hs h0
    have hc : w.acc.ret.toNat ∉ w.read_set ∨ w.acc.ret.toNat < server_fd := by
      rcases hfresh h0 with hf | hf
      · exact Or.inl (fun hm => hf (hopen _ hm))
      · exact Or.inr hf.2
    refine ⟨?_, ?_⟩
    · intro x hx hgt hxe
      rw [heq] at hx
      have hxm := (hmem x).mp hx
      rcases hc with hc | hc
      · exact hc (hxe ▸ hxm)
      · omega
    · exact scan_loop_accepted server_fd w st.maxfd hrange hwr hs h0 (hacc h0) hc
        (max st.maxfd w.acc.ret.toNat + 2) 0 w.ready st hst hcard (le_refl _) (by omega)
        (Nat.zero_le _)

/-- A wake with the listener 3 and the client 4 ready, in which `accept` returns 5. -/
theorem C10_scan_order_witness :
    ((2 : Int) = (({3, 4} : Finset Nat).card : Int)) ∧
      (∀ fd ∈ ({3, 4} : Finset Nat), fd ≤ 4) ∧
      handled (Select.scan 3
        ⟨false, 2, 0, {3, 4}, ⟨5, 0⟩, fun _ => ⟨3, 0, []⟩, fun _ => [⟨90, 0⟩]⟩
        ⟨1, {3, 4}, 4, {3, 4}, Status.running⟩).trace =
        (List.range (4 + 1)).filter (fun fd => decide (fd ∈ ({3, 4} : Finset Nat))) :=
  ⟨by decide, by decide,
    (C10_scan_order 3
      ⟨false, 2, 0, {3, 4}, ⟨5, 0⟩, fun _ => ⟨3, 0, []⟩, fun _ => [⟨90, 0⟩]⟩
      ⟨1, {3, 4}, 4, {3, 4}, Status.running⟩ rfl (by decide) (by decide) (by decide)
      (by decide) (by decide) (by decide)).1⟩

end WebServers

namespace WebServers

/-! The iteration bound of the scan. -/

theorem select_accept_maxfd_le (s : Nat) (acc : SysRet) (st : Select.St) (B : Nat)
    (h1 : st.maxfd ≤ B) (h2 : acc.ret.toNat ≤ B) :
    (Select.accept_client s acc st).st.maxfd ≤ B := by
  simp only [Select.accept_client]
  split_ifs <;> simp <;> omega

theorem scan_loop_fuel_succ (s : Nat) (w : Select.Wake) (B : Nat) (hB : w.acc.ret.toNat ≤ B)
    (n fd : Nat) (ready : Int) (st : Select.St) (hmax : st.maxfd ≤ B) (hn : B + 2 ≤ n + fd) :
    Select.scan_loop s w (n + 1) fd ready st = Select.scan_loop s w n fd ready st := by
  induction n generalizing fd ready st with
  | zero =>
    have hc : ¬ (fd ≤ st.maxfd ∧ ready ≠ 0) := by
      intro h
      omega
    simp [Select.scan_loop, hc]
  | succ m ih =>
    rw [Select.scan_loop]
    conv_rhs => rw [Select.scan_loop]
    have e1 := ih (fd + 1) (ready - 1) (Select.accept_client s w.acc st).st
      (select_accept_maxfd_le s w.acc st B hmax hB) (by omega)
    have e2 := ih (fd + 1) (ready - 1) (Select.serve_client fd (w.rd fd) (w.wr fd) st).st
      (by rw [select_serve_maxfd]; exact hmax) (by omega)
    have e3 := ih (fd + 1) ready st hmax (by omega)
    rw [e1, e2, e3]

/-- More iterations than `scan` allows change nothing: its bound is never
reached with the loop condition true. -/
theorem scan_fuel_enough (s : Nat) (w : Select.Wake) (st : Select.St) (extra : Nat) :
    Select.scan_loop s w (max st.maxfd w.acc.ret.toNat + 2 + extra) 0 w.ready st =
      Select.scan s w st := by
  induction extra with
  | zero => rfl
  | succ k ih =>
    rw [← ih]
    exact scan_loop_fuel_succ s w (max st.maxfd w.acc.ret.toNat) (le_max_right _ _) _ 0 w.ready st
      (le_max_left _ _) ((Nat.le_add_right _ _).trans (Nat.le_add_right _ _))

end WebServers
